import Mathlib

/-!
Verification of the blang compiler front end (lexer, parser, validator)
against its natural-language specification.

The Rust sources are shallowly embedded: each Rust method becomes a Lean
function over an explicit state record.  Bytes are modelled as `Char`
(the sources only ever compare raw bytes against ASCII constants, so the
two views coincide on the inputs considered here).  `i32` values are
modelled as `Int` with the explicit range checks that `str::parse::<i32>`
performs.  Recursion that Rust realises with loops or unbounded mutual
recursion is given an explicit fuel argument; running out of fuel yields
a distinguished artificial error that no theorem below identifies with a
real parse error.
-/

namespace Blang

/-- Token kinds, from src/src/token.rs (`enum TokenType`). -/
inductive TokenType where
  | KeywordReturn
  | KeywordIf
  | KeywordElse
  | KeywordAuto
  | KeywordWhile
  | KeywordDo
  | KeywordBreak
  | KeywordContinue
  | KeywordExtern
  | LeftParen
  | RightParen
  | LeftBracket
  | RightBracket
  | LeftBrace
  | RightBrace
  | Semicolon
  | Colon
  | QuestionMark
  | Comma
  | Plus
  | PlusPlus
  | Minus
  | MinusMinus
  | Star
  | Slash
  | Percent
  | Bang
  | Tilda
  | Equal
  | EqualEqual
  | BangEqual
  | Greater
  | Less
  | GreaterEqual
  | LessEqual
  | Bar
  | BarBar
  | Ampersand
  | AmpersandAmpersand
  | UpArrow
  | GreaterGreater
  | LessLess
  | Identifier
  | IntLiteral
  | CharLiteral
  | StringLiteral
  | EndOfFile
  | Error
deriving DecidableEq, Repr

/-- A token, from src/src/token.rs (`struct Token`).  A `FilePosition` is the
shared file plus a 1-based line number; only the line matters for the
claims, so positions are embedded as the bare line number. -/
structure Token where
  kind : TokenType
  line : Nat
  data : String
deriving DecidableEq, Repr

/-- Scanner state, from src/src/scanner.rs (`struct Scanner`).  `data` is the
immutable file buffer, `line`/`start`/`current` the cursor fields. -/
structure Scanner where
  data : List Char
  line : Nat
  start : Nat
  current : Nat
deriving Repr

/-- src/src/scanner.rs `u8_in_range`. -/
def u8_in_range (ch first last : Char) : Bool :=
  first ≤ ch && ch ≤ last

/-- src/src/scanner.rs `is_alpha`. -/
def is_alpha (ch : Char) : Bool :=
  u8_in_range ch 'a' 'z' || u8_in_range ch 'A' 'Z'

/-- src/src/scanner.rs `is_digit`. -/
def is_digit (ch : Char) : Bool :=
  u8_in_range ch '0' '9'

/-- src/src/scanner.rs `Scanner::peek`. -/
def Scanner.peek (s : Scanner) : Option Char :=
  s.data.get? s.current

/-- src/src/scanner.rs `Scanner::is_at_end`. -/
def Scanner.is_at_end (s : Scanner) : Bool :=
  s.data.length ≤ s.current

/-- src/src/scanner.rs `Scanner::advance`: increments `current` and returns
the byte that was at the old cursor (if any). -/
def Scanner.advance (s : Scanner) : Option Char × Scanner :=
  (s.data.get? s.current, { s with current := s.current + 1 })

/-- Structural worker for `Scanner::skip_whitespace`.  The loop in the
source terminates because each iteration advances the cursor; here the
count of bytes left below the buffer's end serves as structural fuel, so
the worker is invoked with `fuel = data.length - current`, which the loop
condition (`peek` returns a byte) can never exhaust. -/
def skip_whitespace_go (fuel : Nat) (s : Scanner) : Scanner :=
  match fuel with
  | 0 => s
  | f + 1 =>
    match s.peek with
    | some ch =>
      if ch = ' ' || ch = '\t' || ch = '\r' then
        skip_whitespace_go f { s with current := s.current + 1 }
      else if ch = '\n' then
        skip_whitespace_go f { s with line := s.line + 1, current := s.current + 1 }
      else s
    | none => s

/-- src/src/scanner.rs `Scanner::skip_whitespace`: space/tab/CR advance
silently, a newline advances and bumps the line counter; anything else
(or end of input) stops. -/
def Scanner.skip_whitespace (s : Scanner) : Scanner :=
  skip_whitespace_go (s.data.length - s.current) s

/-- Structural worker for `Scanner::advance_while` (same fuel discipline
as `skip_whitespace_go`). -/
def advance_while_go (fuel : Nat) (s : Scanner) (f : Char → Bool) : Scanner :=
  match fuel with
  | 0 => s
  | fl + 1 =>
    match s.peek with
    | some ch =>
      if f ch then
        advance_while_go fl { s with current := s.current + 1 } f
      else s
    | none => s

/-- src/src/scanner.rs `Scanner::advance_while`. -/
def Scanner.advance_while (s : Scanner) (f : Char → Bool) : Scanner :=
  advance_while_go (s.data.length - s.current) s f

/-- src/src/scanner.rs `Scanner::matching`. -/
def Scanner.matching (s : Scanner) (ch : Char) : Bool × Scanner :=
  match s.peek with
  | some peeked => if peeked = ch then (true, { s with current := s.current + 1 }) else (false, s)
  | none => (false, s)

/-- The lexeme slice `data[start..current]`, as in `Scanner::make_token`. -/
def Scanner.lexeme (s : Scanner) : String :=
  String.mk ((s.data.drop s.start).take (s.current - s.start))

/-- src/src/scanner.rs `Scanner::make_token`. -/
def Scanner.make_token (s : Scanner) (kind : TokenType) : Token :=
  { kind := kind, line := s.line, data := s.lexeme }

/-- src/src/scanner.rs `Scanner::make_error_token`. -/
def Scanner.make_error_token (s : Scanner) (msg : String) : Token :=
  { kind := .Error, line := s.line, data := msg }

/-- src/src/scanner.rs `Scanner::make_eof_token`. -/
def Scanner.make_eof_token (s : Scanner) : Token :=
  { kind := .EndOfFile, line := s.line, data := "" }

/-- src/src/scanner.rs `Scanner::check_rest`: compares the buffer bytes from
`start + i` onward against `rest`; note that it reads the file buffer, not
the lexeme, and never checks that the token is not longer than the keyword. -/
def Scanner.check_rest (s : Scanner) (i : Nat) (rest : List Char) (keyword : TokenType) : TokenType :=
  match rest with
  | [] => keyword
  | r :: rs =>
    match s.data.get? (s.start + i) with
    | some ch => if ch = r then s.check_rest (i + 1) rs keyword else .Identifier
    | none => .Identifier

/-- src/src/scanner.rs `Scanner::check_identifier`.  The Rust indexes
`data[start]` directly (the token is never empty there); the impossible
out-of-range case is mapped to `Identifier`. -/
def Scanner.check_identifier (s : Scanner) : TokenType :=
  match s.data.get? s.start with
  | none => .Identifier
  | some ch =>
    if ch = 'i' then s.check_rest 1 ['f'] .KeywordIf
    else if ch = 'r' then s.check_rest 1 ['e', 't', 'u', 'r', 'n'] .KeywordReturn
    else if ch = 'e' then
      if 1 < s.current - s.start then
        match s.data.get? (s.start + 1) with
        | some c2 =>
          if c2 = 'l' then s.check_rest 2 ['s', 'e'] .KeywordElse
          else if c2 = 'x' then s.check_rest 2 ['t', 'e', 'r', 'n'] .KeywordExtern
          else .Identifier
        | none => .Identifier
      else .Identifier
    else if ch = 'w' then s.check_rest 1 ['h', 'i', 'l', 'e'] .KeywordWhile
    else if ch = 'd' then s.check_rest 1 ['o'] .KeywordDo
    else if ch = 'b' then s.check_rest 1 ['r', 'e', 'a', 'k'] .KeywordBreak
    else if ch = 'c' then s.check_rest 1 ['o', 'n', 't', 'i', 'n', 'u', 'e'] .KeywordContinue
    else if ch = 'a' then s.check_rest 1 ['u', 't', 'o'] .KeywordAuto
    else .Identifier

/-- src/src/scanner.rs `Scanner::number`. -/
def Scanner.number (s : Scanner) : Token × Scanner :=
  let s := s.advance_while is_digit
  (s.make_token .IntLiteral, s)

/-- src/src/scanner.rs `Scanner::identifier_or_keyword`. -/
def Scanner.identifier_or_keyword (s : Scanner) : Token × Scanner :=
  let s := s.advance_while (fun ch => is_alpha ch || is_digit ch || ch = '_')
  (s.make_token s.check_identifier, s)

/-- src/src/scanner.rs `Scanner::string`: consumes until a `"` or end of
input; the error message really is "unterminated character literal" in the
source.  No line-counter update happens here even when newlines are
consumed. -/
def Scanner.string (s : Scanner) : Token × Scanner :=
  let s := s.advance_while (fun ch => ch ≠ '\"')
  if s.is_at_end then
    (s.make_error_token "unterminated character literal", s)
  else
    let s := { s with current := s.current + 1 }
    (s.make_token .StringLiteral, s)

/-- src/src/scanner.rs `Scanner::character_literal`: consumes one byte as the
character and one further byte as the closing quote; the closing byte is
consumed without being inspected. -/
def Scanner.character_literal (s : Scanner) : Token × Scanner :=
  if s.is_at_end then
    (s.make_error_token "expected character", s)
  else
    let s := { s with current := s.current + 1 }
    if s.is_at_end then
      (s.make_error_token "unterminated character literal", s)
    else
      let s := { s with current := s.current + 1 }
      (s.make_token .CharLiteral, s)

/-- The byte dispatch of `Scanner::next_token` (the body of its
`Some(ch) => match *ch` arm); `s` is the state after `advance` consumed
`ch`. -/
def next_token_chain (ch : Char) (s : Scanner) : Token × Scanner :=
  if ch = '(' then (s.make_token .LeftParen, s)
    else if ch = ')' then (s.make_token .RightParen, s)
    else if ch = '\x7b' then (s.make_token .LeftBracket, s)
    else if ch = '\x7d' then (s.make_token .RightBracket, s)
    else if ch = '[' then (s.make_token .LeftBrace, s)
    else if ch = ']' then (s.make_token .RightBrace, s)
    else if ch = ';' then (s.make_token .Semicolon, s)
    else if ch = ':' then (s.make_token .Colon, s)
    else if ch = ',' then (s.make_token .Comma, s)
    else if ch = '?' then (s.make_token .QuestionMark, s)
    else if ch = '+' then
      match s.matching '+' with
      | (true, s) => (s.make_token .PlusPlus, s)
      | (false, s) => (s.make_token .Plus, s)
    else if ch = '*' then (s.make_token .Star, s)
    else if ch = '/' then (s.make_token .Slash, s)
    else if ch = '%' then (s.make_token .Percent, s)
    else if ch = '~' then (s.make_token .Tilda, s)
    else if ch = '-' then
      match s.matching '-' with
      | (true, s) => (s.make_token .MinusMinus, s)
      | (false, s) =>
        if is_digit ((s.peek.map id).getD '_') then s.number
        else (s.make_token .Minus, s)
    else if ch = '!' then
      match s.matching '=' with
      | (true, s) => (s.make_token .BangEqual, s)
      | (false, s) => (s.make_token .Bang, s)
    else if ch = '=' then
      match s.matching '=' with
      | (true, s) => (s.make_token .EqualEqual, s)
      | (false, s) => (s.make_token .Equal, s)
    else if ch = '>' then
      match s.matching '=' with
      | (true, s) => (s.make_token .GreaterEqual, s)
      | (false, s) =>
        match s.matching '>' with
        | (true, s) => (s.make_token .GreaterGreater, s)
        | (false, s) => (s.make_token .Greater, s)
    else if ch = '<' then
      match s.matching '=' with
      | (true, s) => (s.make_token .LessEqual, s)
      | (false, s) =>
        match s.matching '<' with
        | (true, s) => (s.make_token .LessLess, s)
        | (false, s) => (s.make_token .Less, s)
    else if ch = '|' then
      match s.matching '|' with
      | (true, s) => (s.make_token .BarBar, s)
      | (false, s) => (s.make_token .Bar, s)
    else if ch = '&' then
      match s.matching '&' with
      | (true, s) => (s.make_token .AmpersandAmpersand, s)
      | (false, s) => (s.make_token .Ampersand, s)
    else if ch = '^' then (s.make_token .UpArrow, s)
    else if ch = '\x27' then s.character_literal
    else if ch = '\"' then s.string
    else
      if is_alpha ch || ch = '_' then s.identifier_or_keyword
      else if is_digit ch then s.number
      else (s.make_error_token "unrecognized character", s)

/-- src/src/scanner.rs `Scanner::next_token`, token-forming part: the
match on the result of `advance`. -/
def next_token_core (s : Scanner) : Token × Scanner :=
  match s.advance with
  | (some ch, s) => next_token_chain ch s
  | (none, s) => (s.make_eof_token, s)

/-- src/src/scanner.rs `Scanner::next_token`: skip whitespace, reset
`start`, then form one token. -/
def Scanner.next_token (s : Scanner) : Token × Scanner :=
  let s := s.skip_whitespace
  let s := { s with start := s.current }
  next_token_core s

/-- Fresh scanner over a source string (`Scanner::new`). -/
def init_scanner (src : String) : Scanner :=
  { data := src.data, line := 1, start := 0, current := 0 }

/-- The scanner state after `n` calls to `next_token`. -/
def run_calls (s : Scanner) : Nat → Scanner
  | 0 => s
  | n + 1 => (Scanner.next_token (run_calls s n)).2

/-- The token produced by the `(n+1)`-th call to `next_token` (0-indexed). -/
def nth_token (s : Scanner) (n : Nat) : Token :=
  (Scanner.next_token (run_calls s n)).1

/-- The first `n` tokens of the stream. -/
def scan_tokens (s : Scanner) (n : Nat) : List Token :=
  (List.range n).map (nth_token s)

/-! ## Abstract syntax tree (src/src/ast.rs)

Every node stores its position; as for tokens, the position is embedded as
the bare line number. -/

/-- src/src/ast.rs `Expr`/`ExprKind`, flattened into one inductive. -/
inductive Expr where
  | IntLit (pos : Nat) (value : Int)
  | StringLit (pos : Nat) (str : String)
  | Var (pos : Nat) (name : String)
  | UnaryOp (pos : Nat) (op : TokenType) ( is_postfix : Bool) (operand : Expr)
  | BinOp (pos : Nat) (left : Expr) (op : TokenType) (right : Expr)
  | Ternary (pos : Nat) (cond : Expr) (then_arm : Expr) (else_arm : Expr)
deriving DecidableEq, Repr

/-- src/src/ast.rs `Stmt`/`StmtKind`, flattened into one inductive.
`StmtKind::Expr` is rendered `ExprStmt` to avoid clashing with `Expr`. -/
inductive Stmt where
  | Block (pos : Nat) (stmts : List Stmt)
  | ExprStmt (pos : Nat) (e : Expr)
  | Auto (pos : Nat) (name : String) (count : Int) (initial : Option Expr)
  | Extern (pos : Nat) (name : String)
  | If (pos : Nat) (cond : Expr) (then_arm : Stmt) (else_arm : Option Stmt)
  | While (pos : Nat) (cond : Expr) (body : Stmt)
  | DoWhile (pos : Nat) (cond : Expr) (body : Stmt)
  | Return (pos : Nat) (e : Option Expr)
  | Break (pos : Nat)
  | Continue (pos : Nat)
deriving Repr

/-- src/src/ast.rs `Decl`/`DeclKind`, flattened into one inductive. -/
inductive Decl where
  | Function (pos : Nat) (name : String) (params : List String) (body : Stmt)
  | Data (pos : Nat) (name : String) (count : Int) (initial : Option Expr)
deriving Repr

/-! ## The parser (src/src/parser.rs) -/

/-- src/src/parser.rs `struct ParserError` (position embedded as the line). -/
structure PError where
  line : Nat
  msg : String
deriving DecidableEq, Repr

/-- src/src/parser.rs `struct Parser`: scanner, one-token lookahead, the
last consumed token, and the sticky error flag. -/
structure Parser where
  scanner : Scanner
  previous_token : Token
  current_token : Token
  had_error : Bool
deriving Repr

/-- Result of a fallible parser method: Rust's `Result<α, ParserError>`
together with the mutated parser state. -/
abbrev PRes (α : Type) := Except PError α × Parser

/-- src/src/parser.rs `Parser::new`: primes the lookahead with the first
token; `previous_token` starts as a dummy `Error` token. -/
def Parser.new (sc : Scanner) : Parser :=
  let (t, sc) := sc.next_token
  { scanner := sc
    previous_token := { kind := .Error, line := 0, data := "" }
    current_token := t
    had_error := false }

/-- src/src/parser.rs `Parser::check`. -/
def Parser.check (p : Parser) (kind : TokenType) : Bool :=
  p.current_token.kind = kind

/-- src/src/parser.rs `Parser::advance`. -/
def Parser.advance (p : Parser) : Parser :=
  let (t, sc) := p.scanner.next_token
  { p with scanner := sc, previous_token := p.current_token, current_token := t }

/-- src/src/parser.rs `Parser::is_at_end`. -/
def Parser.is_at_end (p : Parser) : Bool :=
  p.current_token.kind = .EndOfFile

/-- src/src/parser.rs `Parser::matching`. -/
def Parser.matching (p : Parser) (kind : TokenType) : Bool × Parser :=
  if p.check kind then (true, p.advance) else (false, p)

/-- A short-circuit chain `matching k1 || matching k2 || ...` as produced by
the `parse_expression_type!` macro and `parse_unary`/`continue_parse_postfix`:
tries each kind in order, consuming on the first hit. -/
def Parser.matching_any (p : Parser) (kinds : List TokenType) : Bool × Parser :=
  match kinds with
  | [] => (false, p)
  | k :: ks =>
    match p.matching k with
    | (true, p) => (true, p)
    | (false, p) => p.matching_any ks

/-- src/src/parser.rs `Parser::error_at_current`: sets the sticky flag and
builds the error at the current token's position. -/
def Parser.error_at_current (p : Parser) (msg : String) : PError × Parser :=
  ({ line := p.current_token.line, msg := msg }, { p with had_error := true })

/-- src/src/parser.rs `Parser::require`. -/
def Parser.require (p : Parser) (kind : TokenType) (msg : String) : PRes Token :=
  match p.matching kind with
  | (true, p) => (.ok p.previous_token, p)
  | (false, p) =>
    let (e, p) := p.error_at_current msg
    (.error e, p)

/-- Artificial result used when the embedding's fuel runs out.  It does not
set `had_error`, so no theorem can mistake it for a source-level parse
error. -/
def fuel_out {α : Type} (p : Parser) : PRes α :=
  (.error { line := p.current_token.line, msg := "embedding: out of fuel" }, p)

/-- Embeds Rust `str::parse::<i32>` (`i32::from_str`) as used by
`parse_primary` and `continue_parse_var`: an optional sign followed by a
non-empty digit run, rejected when the value falls outside
`[-2^31, 2^31 - 1]`. -/
def parse_i32 (str : String) : Option Int :=
  match str.data with
  | [] => none
  | c :: cs =>
    let signed : Bool × List Char :=
      if c = '-' then (true, cs) else if c = '+' then (false, cs) else (false, c :: cs)
    match signed with
    | (neg, digits) =>
      if digits.isEmpty then none
      else if digits.all is_digit then
        let v : Nat := digits.foldl (fun acc ch => acc * 10 + (ch.toNat - '0'.toNat)) 0
        if neg then
          if v ≤ 2 ^ 31 then some (-(v : Int)) else none
        else
          if v ≤ 2 ^ 31 - 1 then some (v : Int) else none
      else none

mutual

/-- src/src/parser.rs `Parser::parse_expr`. -/
def parse_expr (fuel : Nat) (p : Parser) : PRes Expr :=
  match fuel with
  | 0 => fuel_out p
  | f + 1 => parse_comma_expr f p

/-- src/src/parser.rs `parse_expression_type!(parse_comma_expr,
parse_assignment, TokenType::Comma)`, entry part. -/
def parse_comma_expr (fuel : Nat) (p : Parser) : PRes Expr :=
  match fuel with
  | 0 => fuel_out p
  | f + 1 =>
    match parse_assignment f p with
    | (.error e, p) => (.error e, p)
    | (.ok left, p) => parse_comma_loop f left p

/-- The `while self.matching(...)` fold of `parse_comma_expr`. -/
def parse_comma_loop (fuel : Nat) (left : Expr) (p : Parser) : PRes Expr :=
  match fuel with
  | 0 => fuel_out p
  | f + 1 =>
    match p.matching_any [.Comma] with
    | (true, p) =>
      let token := p.previous_token
      match parse_assignment f p with
      | (.error e, p) => (.error e, p)
      | (.ok right, p) => parse_comma_loop f (.BinOp token.line left token.kind right) p
    | (false, p) => (.ok left, p)

/-- src/src/parser.rs `Parser::parse_assignment`: right-associative via the
recursive call on its own level. -/
def parse_assignment (fuel : Nat) (p : Parser) : PRes Expr :=
  match fuel with
  | 0 => fuel_out p
  | f + 1 =>
    match parse_ternary f p with
    | (.error e, p) => (.error e, p)
    | (.ok left, p) =>
      match p.matching .Equal with
      | (true, p) =>
        let equal_token := p.previous_token
        match parse_assignment f p with
        | (.error e, p) => (.error e, p)
        | (.ok right, p) => (.ok (.BinOp equal_token.line left equal_token.kind right), p)
      | (false, p) => (.ok left, p)

/-- src/src/parser.rs `Parser::parse_ternary`. -/
def parse_ternary (fuel : Nat) (p : Parser) : PRes Expr :=
  match fuel with
  | 0 => fuel_out p
  | f + 1 =>
    match parse_logical_or f p with
    | (.error e, p) => (.error e, p)
    | (.ok condition, p) =>
      match p.matching .QuestionMark with
      | (true, p) =>
        let question_mark := p.previous_token
        match parse_expr f p with
        | (.error e, p) => (.error e, p)
        | (.ok then_arm, p) =>
          match p.require .Colon "expected \x27:\x27 in ternary expression" with
          | (.error e, p) => (.error e, p)
          | (.ok _, p) =>
            match parse_expr f p with
            | (.error e, p) => (.error e, p)
            | (.ok else_arm, p) =>
              (.ok (.Ternary question_mark.line condition then_arm else_arm), p)
      | (false, p) => (.ok condition, p)

/-- src/src/parser.rs `parse_expression_type!(parse_logical_or, ...)`. -/
def parse_logical_or (fuel : Nat) (p : Parser) : PRes Expr :=
  match fuel with
  | 0 => fuel_out p
  | f + 1 =>
    match parse_logical_and f p with
    | (.error e, p) => (.error e, p)
    | (.ok left, p) => parse_logical_or_loop f left p

/-- Fold loop of `parse_logical_or`. -/
def parse_logical_or_loop (fuel : Nat) (left : Expr) (p : Parser) : PRes Expr :=
  match fuel with
  | 0 => fuel_out p
  | f + 1 =>
    match p.matching_any [.BarBar] with
    | (true, p) =>
      let token := p.previous_token
      match parse_logical_and f p with
      | (.error e, p) => (.error e, p)
      | (.ok right, p) => parse_logical_or_loop f (.BinOp token.line left token.kind right) p
    | (false, p) => (.ok left, p)

/-- src/src/parser.rs `parse_expression_type!(parse_logical_and, ...)`. -/
def parse_logical_and (fuel : Nat) (p : Parser) : PRes Expr :=
  match fuel with
  | 0 => fuel_out p
  | f + 1 =>
    match parse_bitwise_or f p with
    | (.error e, p) => (.error e, p)
    | (.ok left, p) => parse_logical_and_loop f left p

/-- Fold loop of `parse_logical_and`. -/
def parse_logical_and_loop (fuel : Nat) (left : Expr) (p : Parser) : PRes Expr :=
  match fuel with
  | 0 => fuel_out p
  | f + 1 =>
    match p.matching_any [.AmpersandAmpersand] with
    | (true, p) =>
      let token := p.previous_token
      match parse_bitwise_or f p with
      | (.error e, p) => (.error e, p)
      | (.ok right, p) => parse_logical_and_loop f (.BinOp token.line left token.kind right) p
    | (false, p) => (.ok left, p)

/-- src/src/parser.rs `parse_expression_type!(parse_bitwise_or, ...)`. -/
def parse_bitwise_or (fuel : Nat) (p : Parser) : PRes Expr :=
  match fuel with
  | 0 => fuel_out p
  | f + 1 =>
    match parse_bitwise_xor f p with
    | (.error e, p) => (.error e, p)
    | (.ok left, p) => parse_bitwise_or_loop f left p

/-- Fold loop of `parse_bitwise_or`. -/
def parse_bitwise_or_loop (fuel : Nat) (left : Expr) (p : Parser) : PRes Expr :=
  match fuel with
  | 0 => fuel_out p
  | f + 1 =>
    match p.matching_any [.Bar] with
    | (true, p) =>
      let token := p.previous_token
      match parse_bitwise_xor f p with
      | (.error e, p) => (.error e, p)
      | (.ok right, p) => parse_bitwise_or_loop f (.BinOp token.line left token.kind right) p
    | (false, p) => (.ok left, p)

/-- src/src/parser.rs `parse_expression_type!(parse_bitwise_xor, ...)`. -/
def parse_bitwise_xor (fuel : Nat) (p : Parser) : PRes Expr :=
  match fuel with
  | 0 => fuel_out p
  | f + 1 =>
    match parse_bitwise_and f p with
    | (.error e, p) => (.error e, p)
    | (.ok left, p) => parse_bitwise_xor_loop f left p

/-- Fold loop of `parse_bitwise_xor`. -/
def parse_bitwise_xor_loop (fuel : Nat) (left : Expr) (p : Parser) : PRes Expr :=
  match fuel with
  | 0 => fuel_out p
  | f + 1 =>
    match p.matching_any [.UpArrow] with
    | (true, p) =>
      let token := p.previous_token
      match parse_bitwise_and f p with
      | (.error e, p) => (.error e, p)
      | (.ok right, p) => parse_bitwise_xor_loop f (.BinOp token.line left token.kind right) p
    | (false, p) => (.ok left, p)

/-- src/src/parser.rs `parse_expression_type!(parse_bitwise_and, ...)`. -/
def parse_bitwise_and (fuel : Nat) (p : Parser) : PRes Expr :=
  match fuel with
  | 0 => fuel_out p
  | f + 1 =>
    match parse_equality f p with
    | (.error e, p) => (.error e, p)
    | (.ok left, p) => parse_bitwise_and_loop f left p

/-- Fold loop of `parse_bitwise_and`. -/
def parse_bitwise_and_loop (fuel : Nat) (left : Expr) (p : Parser) : PRes Expr :=
  match fuel with
  | 0 => fuel_out p
  | f + 1 =>
    match p.matching_any [.Ampersand] with
    | (true, p) =>
      let token := p.previous_token
      match parse_equality f p with
      | (.error e, p) => (.error e, p)
      | (.ok right, p) => parse_bitwise_and_loop f (.BinOp token.line left token.kind right) p
    | (false, p) => (.ok left, p)

/-- src/src/parser.rs `parse_expression_type!(parse_equality, ...)`. -/
def parse_equality (fuel : Nat) (p : Parser) : PRes Expr :=
  match fuel with
  | 0 => fuel_out p
  | f + 1 =>
    match parse_comparison f p with
    | (.error e, p) => (.error e, p)
    | (.ok left, p) => parse_equality_loop f left p

/-- Fold loop of `parse_equality`. -/
def parse_equality_loop (fuel : Nat) (left : Expr) (p : Parser) : PRes Expr :=
  match fuel with
  | 0 => fuel_out p
  | f + 1 =>
    match p.matching_any [.EqualEqual, .BangEqual] with
    | (true, p) =>
      let token := p.previous_token
      match parse_comparison f p with
      | (.error e, p) => (.error e, p)
      | (.ok right, p) => parse_equality_loop f (.BinOp token.line left token.kind right) p
    | (false, p) => (.ok left, p)

/-- src/src/parser.rs `parse_expression_type!(parse_comparison, ...)`. -/
def parse_comparison (fuel : Nat) (p : Parser) : PRes Expr :=
  match fuel with
  | 0 => fuel_out p
  | f + 1 =>
    match parse_shift f p with
    | (.error e, p) => (.error e, p)
    | (.ok left, p) => parse_comparison_loop f left p

/-- Fold loop of `parse_comparison`. -/
def parse_comparison_loop (fuel : Nat) (left : Expr) (p : Parser) : PRes Expr :=
  match fuel with
  | 0 => fuel_out p
  | f + 1 =>
    match p.matching_any [.Greater, .Less, .GreaterEqual, .LessEqual] with
    | (true, p) =>
      let token := p.previous_token
      match parse_shift f p with
      | (.error e, p) => (.error e, p)
      | (.ok right, p) => parse_comparison_loop f (.BinOp token.line left token.kind right) p
    | (false, p) => (.ok left, p)

/-- src/src/parser.rs `parse_expression_type!(parse_shift, ...)`. -/
def parse_shift (fuel : Nat) (p : Parser) : PRes Expr :=
  match fuel with
  | 0 => fuel_out p
  | f + 1 =>
    match parse_term f p with
    | (.error e, p) => (.error e, p)
    | (.ok left, p) => parse_shift_loop f left p

/-- Fold loop of `parse_shift`. -/
def parse_shift_loop (fuel : Nat) (left : Expr) (p : Parser) : PRes Expr :=
  match fuel with
  | 0 => fuel_out p
  | f + 1 =>
    match p.matching_any [.GreaterGreater, .LessLess] with
    | (true, p) =>
      let token := p.previous_token
      match parse_term f p with
      | (.error e, p) => (.error e, p)
      | (.ok right, p) => parse_shift_loop f (.BinOp token.line left token.kind right) p
    | (false, p) => (.ok left, p)

/-- src/src/parser.rs `parse_expression_type!(parse_term, parse_factor,
TokenType::Plus, TokenType::Minus)`. -/
def parse_term (fuel : Nat) (p : Parser) : PRes Expr :=
  match fuel with
  | 0 => fuel_out p
  | f + 1 =>
    match parse_factor f p with
    | (.error e, p) => (.error e, p)
    | (.ok left, p) => parse_term_loop f left p

/-- Fold loop of `parse_term`. -/
def parse_term_loop (fuel : Nat) (left : Expr) (p : Parser) : PRes Expr :=
  match fuel with
  | 0 => fuel_out p
  | f + 1 =>
    match p.matching_any [.Plus, .Minus] with
    | (true, p) =>
      let token := p.previous_token
      match parse_factor f p with
      | (.error e, p) => (.error e, p)
      | (.ok right, p) => parse_term_loop f (.BinOp token.line left token.kind right) p
    | (false, p) => (.ok left, p)

/-- src/src/parser.rs `parse_expression_type!(parse_factor, parse_unary,
TokenType::Star, TokenType::Slash, TokenType::Percent)`. -/
def parse_factor (fuel : Nat) (p : Parser) : PRes Expr :=
  match fuel with
  | 0 => fuel_out p
  | f + 1 =>
    match parse_unary f p with
    | (.error e, p) => (.error e, p)
    | (.ok left, p) => parse_factor_loop f left p

/-- Fold loop of `parse_factor`. -/
def parse_factor_loop (fuel : Nat) (left : Expr) (p : Parser) : PRes Expr :=
  match fuel with
  | 0 => fuel_out p
  | f + 1 =>
    match p.matching_any [.Star, .Slash, .Percent] with
    | (true, p) =>
      let token := p.previous_token
      match parse_unary f p with
      | (.error e, p) => (.error e, p)
      | (.ok right, p) => parse_factor_loop f (.BinOp token.line left token.kind right) p
    | (false, p) => (.ok left, p)

/-- src/src/parser.rs `Parser::parse_unary`. -/
def parse_unary (fuel : Nat) (p : Parser) : PRes Expr :=
  match fuel with
  | 0 => fuel_out p
  | f + 1 =>
    match p.matching_any
        [.Minus, .Plus, .Ampersand, .Star, .Bang, .Tilda, .PlusPlus, .MinusMinus] with
    | (true, p) =>
      let token := p.previous_token
      match parse_unary f p with
      | (.error e, p) => (.error e, p)
      | (.ok expr, p) => (.ok (.UnaryOp token.line token.kind false expr), p)
    | (false, p) => parse_primary f p

/-- src/src/parser.rs `Parser::parse_primary`. -/
def parse_primary (fuel : Nat) (p : Parser) : PRes Expr :=
  match fuel with
  | 0 => fuel_out p
  | f + 1 =>
    let step : PRes Expr :=
      match p.matching .IntLiteral with
      | (true, p) =>
        let token := p.previous_token
        match parse_i32 token.data with
        | some num => (.ok (.IntLit token.line num), p)
        | none =>
          -- Rust formats the `ParseIntError` here; the exact text is not
          -- used by any claim, so a fixed message stands in for it.
          let (e, p) := p.error_at_current "invalid integer literal"
          (.error e, p)
      | (false, p) =>
        match p.matching .Identifier with
        | (true, p) =>
          let token := p.previous_token
          (.ok (.Var token.line token.data), p)
        | (false, p) =>
          match p.matching .LeftParen with
          | (true, p) =>
            match parse_expr f p with
            | (.error e, p) => (.error e, p)
            | (.ok expr, p) =>
              match p.require .RightParen "expected \x27)\x27 after expression" with
              | (.error e, p) => (.error e, p)
              | (.ok _, p) => (.ok expr, p)
          | (false, p) =>
            let (e, p) := p.error_at_current "expected expression"
            (.error e, p)
    match step with
    | (.error e, p) => (.error e, p)
    | (.ok expr, p) => continue_parse_postfix f expr p

/-- src/src/parser.rs `Parser::continue_parse_postfix`: greedily consumes
trailing `++`/`--`/`[index]`, desugaring indexing into
`*((expr) + (index * 4))`. -/
def continue_parse_postfix (fuel : Nat) (res : Expr) (p : Parser) : PRes Expr :=
  match fuel with
  | 0 => fuel_out p
  | f + 1 =>
    match p.matching_any [.PlusPlus, .MinusMinus, .LeftBrace] with
    | (true, p) =>
      if p.previous_token.kind = .LeftBrace then
        let token := p.previous_token
        match parse_expr f p with
        | (.error e, p) => (.error e, p)
        | (.ok index, p) =>
          match p.require .RightBrace "expected \x27]\x27 after index" with
          | (.error e, p) => (.error e, p)
          | (.ok _, p) =>
            continue_parse_postfix f
              (.UnaryOp token.line .Star false
                (.BinOp token.line res .Plus
                  (.BinOp token.line index .Star (.IntLit token.line 4)))) p
      else
        let token := p.previous_token
        continue_parse_postfix f (.UnaryOp token.line token.kind true res) p
    | (false, p) => (.ok res, p)

end

/-- src/src/parser.rs `Parser::parse_parameters`, parameter-list loop:
`while self.matching(Comma) { res.push(self.previous_token.data) }`.
Note the pushed lexeme is the just-consumed comma's. -/
def parse_parameters_loop (fuel : Nat) (res : List String) (p : Parser) : List String × Parser :=
  match fuel with
  | 0 => (res, p)
  | f + 1 =>
    match p.matching .Comma with
    | (true, p) => parse_parameters_loop f (res ++ [p.previous_token.data]) p
    | (false, p) => (res, p)

/-- src/src/parser.rs `Parser::parse_parameters`, exactly as written: it
requires a `(` itself (its caller has already consumed one), pushes
`previous_token.data` without ever consuming an `Identifier`, and requires
a `)` even after `matching(RightParen)` already consumed one. -/
def parse_parameters (fuel : Nat) (p : Parser) : PRes (List String) :=
  match p.require .LeftParen "expected \x27(\x27 before function parameters" with
  | (.error e, p) => (.error e, p)
  | (.ok _, p) =>
    let res : List String := []
    match p.matching .RightParen with
    | (false, p) =>
      let res := res ++ [p.previous_token.data]
      match parse_parameters_loop fuel res p with
      | (res, p) =>
        match p.require .RightParen "expected \x27)\x27 after function parameters" with
        | (.error e, p) => (.error e, p)
        | (.ok _, p) => (.ok res, p)
    | (true, p) =>
      match p.require .RightParen "expected \x27)\x27 after function parameters" with
      | (.error e, p) => (.error e, p)
      | (.ok _, p) => (.ok res, p)

/-- src/src/parser.rs `Parser::continue_parse_var`: optional `[size]`
(defaulting to 1), optional initializer expression, terminating `;`. -/
def continue_parse_var (fuel : Nat) (name : Token) (p : Parser) : PRes Decl :=
  let countRes : PRes Int :=
    match p.matching .LeftBrace with
    | (true, p) =>
      match p.require .IntLiteral "expected size of array" with
      | (.error e, p) => (.error e, p)
      | (.ok count_token, p) =>
        match p.require .RightBrace "expected \x27]\x27 after array size" with
        | (.error e, p) => (.error e, p)
        | (.ok _, p) =>
          match parse_i32 count_token.data with
          | some num => (.ok num, p)
          | none =>
            -- Rust formats the `ParseIntError` here as well.
            let (e, p) := p.error_at_current "invalid integer literal"
            (.error e, p)
    | (false, p) => (.ok 1, p)
  match countRes with
  | (.error e, p) => (.error e, p)
  | (.ok count, p) =>
    match p.matching .Semicolon with
    | (false, p) =>
      match parse_expr fuel p with
      | (.error e, p) => (.error e, p)
      | (.ok res, p) =>
        match p.require .Semicolon "expected \x27;\x27 at the end of declaration" with
        | (.error e, p) => (.error e, p)
        | (.ok _, p) => (.ok (.Data name.line name.data count (some res)), p)
    | (true, p) => (.ok (.Data name.line name.data count none), p)

/-- src/src/parser.rs `Parser::parse_extern_stmt`. -/
def parse_extern_stmt (p : Parser) : PRes Stmt :=
  let token := p.previous_token
  match p.require .Identifier "expected identifier" with
  | (.error e, p) => (.error e, p)
  | (.ok name, p) =>
    match p.require .Semicolon "expected \x27;\x27 after extern statement" with
    | (.error e, p) => (.error e, p)
    | (.ok _, p) => (.ok (.Extern token.line name.data), p)

/-- src/src/parser.rs `Parser::parse_return_stmt`. -/
def parse_return_stmt (fuel : Nat) (p : Parser) : PRes Stmt :=
  let return_keyword := p.previous_token
  match p.matching .Semicolon with
  | (true, p) => (.ok (.Return return_keyword.line none), p)
  | (false, p) =>
    match parse_expr fuel p with
    | (.error e, p) => (.error e, p)
    | (.ok res, p) =>
      match p.require .Semicolon "expected \x27;\x27 after return statement" with
      | (.error e, p) => (.error e, p)
      | (.ok _, p) => (.ok (.Return return_keyword.line (some res)), p)

/-- src/src/parser.rs `Parser::parse_expr_stmt`. -/
def parse_expr_stmt (fuel : Nat) (p : Parser) : PRes Stmt :=
  match parse_expr fuel p with
  | (.error e, p) => (.error e, p)
  | (.ok expr, p) =>
    match p.require .Semicolon "expected \x27;\x27 after expression statement" with
    | (.error e, p) => (.error e, p)
    | (.ok _, p) =>
      (.ok (.ExprStmt (match expr with
        | .IntLit pos _ => pos | .StringLit pos _ => pos | .Var pos _ => pos
        | .UnaryOp pos _ _ _ => pos | .BinOp pos _ _ _ => pos
        | .Ternary pos _ _ _ => pos) expr), p)

/-- src/src/parser.rs `Parser::parse_break_stmt`. -/
def parse_break_stmt (p : Parser) : PRes Stmt :=
  let token := p.previous_token
  match p.require .Semicolon "expected \x27;\x27 after break statement" with
  | (.error e, p) => (.error e, p)
  | (.ok _, p) => (.ok (.Break token.line), p)

/-- src/src/parser.rs `Parser::parse_continue_stmt`. -/
def parse_continue_stmt (p : Parser) : PRes Stmt :=
  let token := p.previous_token
  match p.require .Semicolon "expected \x27;\x27 after continue statement" with
  | (.error e, p) => (.error e, p)
  | (.ok _, p) => (.ok (.Continue token.line), p)

/-- src/src/parser.rs `Parser::synchronize_stmt`, inner loop. -/
def synchronize_stmt_loop (fuel : Nat) (p : Parser) : Parser :=
  match fuel with
  | 0 => p
  | f + 1 =>
    if p.is_at_end then p
    else if p.previous_token.kind = .Semicolon then p
    else
      match p.current_token.kind with
      | .KeywordReturn => p
      | .KeywordExtern => p
      | .KeywordWhile => p
      | .KeywordDo => p
      | .KeywordIf => p
      | _ => synchronize_stmt_loop f p.advance

/-- src/src/parser.rs `Parser::synchronize_stmt`. -/
def synchronize_stmt (fuel : Nat) (p : Parser) : Parser :=
  synchronize_stmt_loop fuel p.advance

/-- `parse_block_stmt`'s final check: the loop stopped either on a consumed
`RightBracket` or at end of input. -/
def parse_block_finish (left_bracket : Token) (res : List Stmt) (p : Parser) : PRes Stmt :=
  if p.previous_token.kind ≠ .RightBracket then
    let (e, p) := p.error_at_current "expected \x27\x7d\x27"
    (.error e, p)
  else
    (.ok (.Block left_bracket.line res), p)

mutual

/-- src/src/parser.rs `Parser::parse_stmt`: dispatch on the consumed
leading token, defaulting to an expression statement. -/
def parse_stmt (fuel : Nat) (p : Parser) : PRes Stmt :=
  match fuel with
  | 0 => fuel_out p
  | f + 1 =>
    match p.matching .LeftBracket with
    | (true, p) => parse_block_stmt f p
    | (false, p) =>
      match p.matching .KeywordReturn with
      | (true, p) => parse_return_stmt f p
      | (false, p) =>
        match p.matching .KeywordIf with
        | (true, p) => parse_if_stmt f p
        | (false, p) =>
          match p.matching .KeywordAuto with
          | (true, p) => parse_auto_stmt f p
          | (false, p) =>
            match p.matching .KeywordExtern with
            | (true, p) => parse_extern_stmt p
            | (false, p) =>
              match p.matching .KeywordWhile with
              | (true, p) => parse_while_stmt f p
              | (false, p) =>
                match p.matching .KeywordDo with
                | (true, p) => parse_do_stmt f p
                | (false, p) =>
                  match p.matching .KeywordBreak with
                  | (true, p) => parse_break_stmt p
                  | (false, p) =>
                    match p.matching .KeywordContinue with
                    | (true, p) => parse_continue_stmt p
                    | (false, p) => parse_expr_stmt f p

/-- src/src/parser.rs `Parser::parse_auto_stmt`, exactly as written: it
calls `continue_parse_fn` (not `continue_parse_var`) and then matches the
resulting declaration against `DeclKind::Data`; the `Function` case is
`panic!()` in the source, modelled as a distinguished error result. -/
def parse_auto_stmt (fuel : Nat) (p : Parser) : PRes Stmt :=
  match fuel with
  | 0 => fuel_out p
  | f + 1 =>
    match p.require .Identifier "expected variable name" with
    | (.error e, p) => (.error e, p)
    | (.ok name, p) =>
      match continue_parse_fn f name p with
      | (.error e, p) => (.error e, p)
      | (.ok var, p) =>
        match var with
        | .Data pos nm count initial => (.ok (.Auto pos nm count initial), p)
        | _ => (.error { line := p.current_token.line, msg := "panic!()" }, p)

/-- src/src/parser.rs `Parser::parse_if_stmt`. -/
def parse_if_stmt (fuel : Nat) (p : Parser) : PRes Stmt :=
  match fuel with
  | 0 => fuel_out p
  | f + 1 =>
    let if_keyword := p.previous_token
    match p.require .LeftParen "expected \x27(\x27 before if condition" with
    | (.error e, p) => (.error e, p)
    | (.ok _, p) =>
      match parse_expr f p with
      | (.error e, p) => (.error e, p)
      | (.ok condition, p) =>
        match p.require .RightParen "expected \x27)\x27 after if condition" with
        | (.error e, p) => (.error e, p)
        | (.ok _, p) =>
          match parse_stmt f p with
          | (.error e, p) => (.error e, p)
          | (.ok then_arm, p) =>
            match p.matching .KeywordElse with
            | (true, p) =>
              match parse_stmt f p with
              | (.error e, p) => (.error e, p)
              | (.ok else_arm, p) =>
                (.ok (.If if_keyword.line condition then_arm (some else_arm)), p)
            | (false, p) => (.ok (.If if_keyword.line condition then_arm none), p)

/-- src/src/parser.rs `Parser::parse_while_stmt`. -/
def parse_while_stmt (fuel : Nat) (p : Parser) : PRes Stmt :=
  match fuel with
  | 0 => fuel_out p
  | f + 1 =>
    let while_token := p.previous_token
    match p.require .LeftParen "expected \x27(\x27 before while loop condition" with
    | (.error e, p) => (.error e, p)
    | (.ok _, p) =>
      match parse_expr f p with
      | (.error e, p) => (.error e, p)
      | (.ok condition, p) =>
        match p.require .RightParen "expected \x27)\x27 after while loop condition" with
        | (.error e, p) => (.error e, p)
        | (.ok _, p) =>
          match parse_stmt f p with
          | (.error e, p) => (.error e, p)
          | (.ok body, p) => (.ok (.While while_token.line condition body), p)

/-- src/src/parser.rs `Parser::parse_do_stmt`. -/
def parse_do_stmt (fuel : Nat) (p : Parser) : PRes Stmt :=
  match fuel with
  | 0 => fuel_out p
  | f + 1 =>
    let do_token := p.previous_token
    match parse_stmt f p with
    | (.error e, p) => (.error e, p)
    | (.ok body, p) =>
      match p.require .LeftParen "expected \x27(\x27 before do loop condition" with
      | (.error e, p) => (.error e, p)
      | (.ok _, p) =>
        match parse_expr f p with
        | (.error e, p) => (.error e, p)
        | (.ok condition, p) =>
          match p.require .RightParen "expected \x27)\x27 after do loop condition" with
          | (.error e, p) => (.error e, p)
          | (.ok _, p) =>
            match p.require .Semicolon "expected \x27;\x27 after do loop condition" with
            | (.error e, p) => (.error e, p)
            | (.ok _, p) => (.ok (.DoWhile do_token.line condition body), p)

/-- src/src/parser.rs `Parser::parse_block_stmt`. -/
def parse_block_stmt (fuel : Nat) (p : Parser) : PRes Stmt :=
  match fuel with
  | 0 => fuel_out p
  | f + 1 =>
    let left_bracket := p.previous_token
    parse_block_loop f left_bracket [] p

/-- The statement loop of `parse_block_stmt`, with statement-level error
recovery (`report_error` prints and is otherwise stateless, so it is not
modelled). -/
def parse_block_loop (fuel : Nat) (left_bracket : Token) (res : List Stmt) (p : Parser) :
    PRes Stmt :=
  match fuel with
  | 0 => fuel_out p
  | f + 1 =>
    if p.is_at_end then parse_block_finish left_bracket res p
    else
      match p.matching .RightBracket with
      | (true, p) => parse_block_finish left_bracket res p
      | (false, p) =>
        match parse_stmt f p with
        | (.ok stmt, p) => parse_block_loop f left_bracket (res ++ [stmt]) p
        | (.error _, p) => parse_block_loop f left_bracket res (synchronize_stmt f p)

/-- src/src/parser.rs `Parser::continue_parse_fn`: called after the
declaration name; parses parameters, `{`, and the body block. -/
def continue_parse_fn (fuel : Nat) (name : Token) (p : Parser) : PRes Decl :=
  match fuel with
  | 0 => fuel_out p
  | f + 1 =>
    match parse_parameters f p with
    | (.error e, p) => (.error e, p)
    | (.ok params, p) =>
      match p.require .LeftBracket "expected \x27\x7b\x27 before function body" with
      | (.error e, p) => (.error e, p)
      | (.ok _, p) =>
        match parse_block_stmt f p with
        | (.error e, p) => (.error e, p)
        | (.ok body, p) => (.ok (.Function name.line name.data params body), p)

end

/-- src/src/parser.rs `Parser::parse_decl`: `Identifier` then `(` starts a
function, a bare `Identifier` starts a data declaration. -/
def parse_decl (fuel : Nat) (p : Parser) : PRes Decl :=
  match fuel with
  | 0 => fuel_out p
  | f + 1 =>
    match p.matching .Identifier with
    | (true, p) =>
      let name := p.previous_token
      match p.matching .LeftParen with
      | (true, p) => continue_parse_fn f name p
      | (false, p) => continue_parse_var f name p
    | (false, p) =>
      let (e, p) := p.error_at_current "expected declaration"
      (.error e, p)

/-- src/src/parser.rs `Parser::synchronize_decl`, inner loop. -/
def synchronize_decl_loop (fuel : Nat) (p : Parser) : Parser :=
  match fuel with
  | 0 => p
  | f + 1 =>
    if p.is_at_end then p
    else
      match p.current_token.kind with
      | .Identifier => p
      | _ => synchronize_decl_loop f p.advance

/-- src/src/parser.rs `Parser::synchronize_decl`. -/
def synchronize_decl (fuel : Nat) (p : Parser) : Parser :=
  synchronize_decl_loop fuel p.advance

/-- src/src/parser.rs `Parser::parse`, declaration loop with
declaration-level recovery. -/
def parse_top (fuel : Nat) (res : List Decl) (p : Parser) : List Decl × Parser :=
  match fuel with
  | 0 => (res, p)
  | f + 1 =>
    if p.is_at_end then (res, p)
    else
      match parse_decl f p with
      | (.ok decl, p) => parse_top f (res ++ [decl]) p
      | (.error _, p) => parse_top f res (synchronize_decl f p)

/-- src/src/parser.rs `Parser::parse`. -/
def Parser.parse (fuel : Nat) (p : Parser) : List Decl × Parser :=
  parse_top fuel [] p

/-- A parser primed on a source string. -/
def initParser (src : String) : Parser :=
  Parser.new (init_scanner src)

/-- Parse a full expression from a source string (ample fuel). -/
def parse_expr_str (src : String) : Except PError Expr :=
  (parse_expr 200 (initParser src)).1

/-! ## The validator (src/src/validator.rs)

The validator in the sources pattern-matches an older revision of the AST
(`DeclKind::External(name, initializer)` and a two-field `Auto`); the spec
notes the two revisions in its section 3.  The embedding applies the
validator's field accesses (`var.0` the name, `var.1` the initializer) to
the AST revision of src/src/ast.rs, which additionally carries `count`
(ignored by the validator).  `report_error` prints a diagnostic; the
embedding records each reported message in the ghost field `errors` so
that "reported no error" is expressible. -/

/-- src/src/validator.rs `struct Validator`, plus the ghost diagnostics
log. -/
structure Validator where
  had_error : Bool
  global_data : List String
  local_data : List String
  loop_count : Nat
  errors : List (Nat × String)
deriving Repr

/-- src/src/validator.rs `Validator::new`. -/
def Validator.new : Validator :=
  { had_error := false, global_data := [], local_data := [], loop_count := 0, errors := [] }

/-- src/src/validator.rs `Validator::error`: sets the sticky flag and
reports (logs) the diagnostic. -/
def Validator.error (v : Validator) (pos : Nat) (msg : String) : Validator :=
  { v with had_error := true, errors := v.errors ++ [(pos, msg)] }

/-- src/src/validator.rs `Validator::add_global`. -/
def Validator.add_global (v : Validator) (name : String) (err_pos : Nat) : Validator :=
  if v.global_data.contains name then
    v.error err_pos ("redefinition of global \x27" ++ name ++ "\x27")
  else
    { v with global_data := v.global_data ++ [name] }

/-- src/src/validator.rs `Validator::add_local`. -/
def Validator.add_local (v : Validator) (name : String) (err_pos : Nat) : Validator :=
  if v.local_data.contains name then
    v.error err_pos ("redefinition of local \x27" ++ name ++ "\x27")
  else
    { v with local_data := v.local_data ++ [name] }

/-- src/src/validator.rs `Validator::clear`. -/
def Validator.clear (v : Validator) : Validator :=
  { v with had_error := false, local_data := [] }

/-- src/src/validator.rs `Validator::validate_iexpr`: an initializer, when
present, must be an integer or string literal. -/
def validate_iexpr (v : Validator) (expr : Option Expr) : Validator :=
  match expr with
  | none => v
  | some e =>
    match e with
    | .IntLit _ _ => v
    | .StringLit _ _ => v
    | .Var pos _ => v.error pos "only integer or string literals are allowed to be iexpr"
    | .UnaryOp pos _ _ _ => v.error pos "only integer or string literals are allowed to be iexpr"
    | .BinOp pos _ _ _ => v.error pos "only integer or string literals are allowed to be iexpr"
    | .Ternary pos _ _ _ => v.error pos "only integer or string literals are allowed to be iexpr"

/-- src/src/validator.rs `Validator::validate_expr`.  Note the message
text "undefinded reference" is the source's spelling. -/
def validate_expr (v : Validator) (expr : Expr) : Validator :=
  match expr with
  | .IntLit _ _ => v
  | .StringLit _ _ => v
  | .Var pos name =>
    if v.local_data.contains name then v
    else v.error pos ("undefinded reference to \x27" ++ name ++ "\x27")
  | .UnaryOp _ _ _ e => validate_expr v e
  | .BinOp _ left _ right => validate_expr (validate_expr v left) right
  | .Ternary _ cond then_arm else_arm =>
    validate_expr (validate_expr (validate_expr v cond) then_arm) else_arm

mutual

/-- src/src/validator.rs `Validator::validate_stmt`. -/
def validate_stmt (v : Validator) (stmt : Stmt) : Validator :=
  match stmt with
  | .Auto pos name _count initial =>
    let v := v.add_local name pos
    validate_iexpr v initial
  | .Extern pos name => v.add_local name pos
  | .ExprStmt _ expr => validate_expr v expr
  | .Block _ stmts => validate_stmt_list v stmts
  | .Break pos =>
    if v.loop_count = 0 then v.error pos "break statement appeared outside of loop" else v
  | .Continue pos =>
    if v.loop_count = 0 then v.error pos "continue statement appeared outside of loop" else v
  | .While _ cond body =>
    let v := validate_expr v cond
    let v := { v with loop_count := v.loop_count + 1 }
    let v := validate_stmt v body
    { v with loop_count := v.loop_count - 1 }
  | .DoWhile _ cond body =>
    let v := { v with loop_count := v.loop_count + 1 }
    let v := validate_stmt v body
    let v := { v with loop_count := v.loop_count - 1 }
    validate_expr v cond
  | .If _ cond then_arm else_arm =>
    let v := validate_expr v cond
    let v := validate_stmt v then_arm
    match else_arm with
    | some e => validate_stmt v e
    | none => v
  | .Return _ expr =>
    match expr with
    | some e => validate_expr v e
    | none => v

/-- The `for stmt in stmts` walk of a block. -/
def validate_stmt_list (v : Validator) (stmts : List Stmt) : Validator :=
  match stmts with
  | [] => v
  | s :: rest => validate_stmt_list (validate_stmt v s) rest

end

/-- src/src/validator.rs `Validator::validate_one_decl`, exactly as
written: after visiting the declaration it saves `had_error` into
`old_error`, clears per-declaration state, and returns `old_error` —
i.e. the returned Bool is the had-an-error flag. -/
def validate_one_decl (v : Validator) (decl : Decl) : Bool × Validator :=
  let v :=
    match decl with
    | .Data pos name _count initial =>
      let v := v.add_global name pos
      validate_iexpr v initial
    | .Function pos name params body =>
      let v := v.add_global name pos
      let v := params.foldl (fun (v : Validator) param => v.add_local param pos) v
      validate_stmt v body
  let old_error := v.had_error
  let v := v.clear
  (old_error, v)

/-- src/src/lib.rs `run_simple_compiler` (lines 61-67): each parsed
declaration is handed to `compile_one_decl` exactly when
`validate_one_decl` returned `true`.  The loop is modelled on the list of
parsed declarations; the returned list is what code generation receives. -/
def handed_loop (v : Validator) : List Decl → List Decl
  | [] => []
  | d :: ds =>
    let (ok, v') := validate_one_decl v d
    if ok then d :: handed_loop v' ds else handed_loop v' ds

/-- The declarations handed onward to code generation for a whole run. -/
def handed_to_codegen (decls : List Decl) : List Decl :=
  handed_loop Validator.new decls

/-- Whether a parse result is a success. -/
def isOkResult {α : Type} : Except PError α → Bool
  | .ok _ => true
  | .error _ => false

/-! ## Theorems -/

/-- The whitespace class of `skip_whitespace` (space, tab, CR, LF). -/
def is_ws (ch : Char) : Bool :=
  ch = ' ' || ch = '\t' || ch = '\r' || ch = '\n'

theorem drop_cons_of_get (l : List Char) (n : Nat) (a : Char) (h : l.get? n = some a) :
    l.drop n = a :: l.drop (n + 1) := by
  induction l generalizing n with
  | nil => simp at h
  | cons x xs ih =>
    cases n with
    | zero =>
      simp only [List.get?] at h
      cases h
      simp
    | succ m =>
      simpa using ih m (by simpa using h)

theorem take_takeWhile_len (l : List Char) (f : Char → Bool) :
    l.take (l.takeWhile f).length = l.takeWhile f := by
  induction l with
  | nil => simp
  | cons x xs ih =>
    by_cases hx : f x
    · simp [List.takeWhile_cons, hx, ih]
    · simp [List.takeWhile_cons, hx]

theorem advance_while_go_spec (fuel : Nat) (s : Scanner) (f : Char → Bool)
    (h : s.data.length - s.current ≤ fuel) :
    advance_while_go fuel s f =
      { s with current := s.current + ((s.data.drop s.current).takeWhile f).length } := by
  induction fuel generalizing s with
  | zero =>
    have hd : s.data.drop s.current = [] := List.drop_eq_nil_of_le (by omega)
    simp [advance_while_go, hd]
  | succ fl ih =>
    simp only [advance_while_go]
    cases hp : s.peek with
    | none =>
      have hlen : s.data.length ≤ s.current := List.get?_eq_none.mp hp
      have hd : s.data.drop s.current = [] := List.drop_eq_nil_of_le hlen
      simp [hd]
    | some ch =>
      have hlt : s.current < s.data.length := (List.get?_eq_some.mp hp).1
      have hd : s.data.drop s.current = ch :: s.data.drop (s.current + 1) :=
        drop_cons_of_get _ _ _ hp
      cases hf : f ch with
      | false => simp [hd, hf]
      | true =>
        have ihs := ih { s with current := s.current + 1 }
          (by show s.data.length - (s.current + 1) ≤ fl; omega)
        simp [hf, ihs, hd, Scanner.mk.injEq]
        all_goals omega

/-- Closed form of `Scanner::advance_while`: it consumes exactly the
maximal run of bytes satisfying `f`, touching no other field. -/
theorem advance_while_spec (s : Scanner) (f : Char → Bool) :
    s.advance_while f =
      { s with current := s.current + ((s.data.drop s.current).takeWhile f).length } :=
  advance_while_go_spec _ s f (Nat.le_refl _)

theorem skip_whitespace_go_spec (fuel : Nat) (s : Scanner)
    (h : s.data.length - s.current ≤ fuel) :
    skip_whitespace_go fuel s =
      { s with
        line := s.line + ((s.data.drop s.current).takeWhile is_ws).count '\n',
        current := s.current + ((s.data.drop s.current).takeWhile is_ws).length } := by
  induction fuel generalizing s with
  | zero =>
    have hd : s.data.drop s.current = [] := List.drop_eq_nil_of_le (by omega)
    simp [skip_whitespace_go, hd]
  | succ fl ih =>
    simp only [skip_whitespace_go]
    cases hp : s.peek with
    | none =>
      have hlen : s.data.length ≤ s.current := List.get?_eq_none.mp hp
      have hd : s.data.drop s.current = [] := List.drop_eq_nil_of_le hlen
      simp [hd]
    | some ch =>
      have hlt : s.current < s.data.length := (List.get?_eq_some.mp hp).1
      have hd : s.data.drop s.current = ch :: s.data.drop (s.current + 1) :=
        drop_cons_of_get _ _ _ hp
      by_cases hsp : ch = ' ' ∨ ch = '\t' ∨ ch = '\r'
      · have hws : is_ws ch = true := by
          rcases hsp with h1 | h1 | h1 <;> simp [is_ws, h1]
        have hnl : (ch = '\n') = False := by
          rcases hsp with h1 | h1 | h1 <;> subst h1 <;> simp
        have ihs := ih { s with current := s.current + 1 }
          (by show s.data.length - (s.current + 1) ≤ fl; omega)
        have hc : (ch = ' ' || ch = '\t' || ch = '\r') = true := by
          rcases hsp with h1 | h1 | h1 <;> simp [h1]
        simp [hc, ihs, hd, hws, hnl, List.count_cons, Scanner.mk.injEq]
        all_goals omega
      · push_neg at hsp
        obtain ⟨h1, h2, h3⟩ := hsp
        have hc : (ch = ' ' || ch = '\t' || ch = '\r') = false := by
          simp [h1, h2, h3]
        by_cases hn : ch = '\n'
        · subst hn
          have ihs := ih { s with line := s.line + 1, current := s.current + 1 }
            (by show s.data.length - (s.current + 1) ≤ fl; omega)
          simp [hc, ihs, hd, is_ws, List.count_cons, Scanner.mk.injEq]
          all_goals omega
        · have hws : is_ws ch = false := by
            simp [is_ws, h1, h2, h3, hn]
          simp [hc, hn, hd, hws]

/-- Closed form of `Scanner::skip_whitespace`: it consumes exactly the
maximal whitespace run and bumps the line counter once per newline byte
in that run. -/
theorem skip_whitespace_spec (s : Scanner) :
    s.skip_whitespace =
      { s with
        line := s.line + ((s.data.drop s.current).takeWhile is_ws).count '\n',
        current := s.current + ((s.data.drop s.current).takeWhile is_ws).length } :=
  skip_whitespace_go_spec _ s (Nat.le_refl _)

theorem check_rest_ne_eof (s : Scanner) (i : Nat) (rest : List Char) (kw : TokenType)
    (hk : kw ≠ .EndOfFile) : s.check_rest i rest kw ≠ .EndOfFile := by
  induction rest generalizing i with
  | nil => simpa [Scanner.check_rest] using hk
  | cons r rs ih =>
    simp only [Scanner.check_rest]
    split
    · split
      · exact ih _
      · simp
    · simp

theorem check_identifier_ne_eof (s : Scanner) : ¬ s.check_identifier = .EndOfFile := by
  unfold Scanner.check_identifier
  split
  · simp
  · split_ifs
    · exact check_rest_ne_eof _ _ _ _ (by simp)
    · exact check_rest_ne_eof _ _ _ _ (by simp)
    · split
      · split_ifs
        · exact check_rest_ne_eof _ _ _ _ (by simp)
        · exact check_rest_ne_eof _ _ _ _ (by simp)
        · simp
      · simp
    · simp
    · exact check_rest_ne_eof _ _ _ _ (by simp)
    · exact check_rest_ne_eof _ _ _ _ (by simp)
    · exact check_rest_ne_eof _ _ _ _ (by simp)
    · exact check_rest_ne_eof _ _ _ _ (by simp)
    · exact check_rest_ne_eof _ _ _ _ (by simp)
    · simp

theorem make_token_kind (s : Scanner) (k : TokenType) : (s.make_token k).kind = k := rfl

theorem make_token_line (s : Scanner) (k : TokenType) : (s.make_token k).line = s.line := rfl

theorem make_error_token_kind (s : Scanner) (m : String) :
    (s.make_error_token m).kind = .Error := rfl

theorem make_error_token_line (s : Scanner) (m : String) :
    (s.make_error_token m).line = s.line := rfl

/-- The state facts for one `matching` call: buffer, line and `start` are
untouched and the cursor does not rewind. -/
theorem matching_props (s : Scanner) (c : Char) :
    (s.matching c).2.data = s.data ∧ (s.matching c).2.line = s.line ∧
    (s.matching c).2.start = s.start ∧ s.current ≤ (s.matching c).2.current := by
  unfold Scanner.matching
  cases hp : s.peek with
  | none => simp
  | some ch =>
    by_cases h : ch = c <;> simp [h] <;> omega

/-- The invariant proved for every branch of `next_token_chain` over a
result `r`. -/
def chain_inv (u : Scanner) (r : Token × Scanner) : Prop :=
  r.2.data = u.data ∧ r.2.line = u.line ∧ r.1.line = u.line ∧
  u.current ≤ r.2.current ∧ ¬ r.1.kind = .EndOfFile

theorem single_tok_inv (u : Scanner) (k : TokenType) (hk : ¬ k = .EndOfFile) :
    chain_inv u (u.make_token k, u) := by
  refine ⟨rfl, rfl, rfl, Nat.le_refl _, ?_⟩
  simpa [make_token_kind] using hk

/-- Branch shape `+`/`!`/`=`/`|`/`&`: one lookahead `matching`. -/
theorem two_char_inv (u : Scanner) (c : Char) (k1 k2 : TokenType)
    (hk1 : ¬ k1 = .EndOfFile) (hk2 : ¬ k2 = .EndOfFile) :
    chain_inv u
      (match u.matching c with
       | (true, s) => (s.make_token k1, s)
       | (false, s) => (s.make_token k2, s)) := by
  have hp := matching_props u c
  cases hm : u.matching c with
  | mk b s' =>
    rw [hm] at hp
    cases b with
    | true =>
      show chain_inv u (s'.make_token k1, s')
      exact ⟨hp.1, hp.2.1, (make_token_line s' k1).trans hp.2.1, hp.2.2.2,
        by rw [make_token_kind]; exact hk1⟩
    | false =>
      show chain_inv u (s'.make_token k2, s')
      exact ⟨hp.1, hp.2.1, (make_token_line s' k2).trans hp.2.1, hp.2.2.2,
        by rw [make_token_kind]; exact hk2⟩

/-- Branch shape `>`/`<`: two nested lookahead `matching` calls. -/
theorem three_char_inv (u : Scanner) (c1 c2 : Char) (k1 k2 k3 : TokenType)
    (hk1 : ¬ k1 = .EndOfFile) (hk2 : ¬ k2 = .EndOfFile) (hk3 : ¬ k3 = .EndOfFile) :
    chain_inv u
      (match u.matching c1 with
       | (true, s) => (s.make_token k1, s)
       | (false, s) =>
         match s.matching c2 with
         | (true, s) => (s.make_token k2, s)
         | (false, s) => (s.make_token k3, s)) := by
  have hp := matching_props u c1
  cases hm : u.matching c1 with
  | mk b s' =>
    rw [hm] at hp
    cases b with
    | true =>
      show chain_inv u (s'.make_token k1, s')
      exact ⟨hp.1, hp.2.1, (make_token_line s' k1).trans hp.2.1, hp.2.2.2,
        by rw [make_token_kind]; exact hk1⟩
    | false =>
      show chain_inv u
        (match s'.matching c2 with
         | (true, s) => (s.make_token k2, s)
         | (false, s) => (s.make_token k3, s))
      have hp2 := matching_props s' c2
      cases hm2 : s'.matching c2 with
      | mk b2 s2 =>
        rw [hm2] at hp2
        cases b2 with
        | true =>
          show chain_inv u (s2.make_token k2, s2)
          exact ⟨hp2.1.trans hp.1, hp2.2.1.trans hp.2.1,
            (make_token_line s2 k2).trans (hp2.2.1.trans hp.2.1),
            Nat.le_trans hp.2.2.2 hp2.2.2.2, by rw [make_token_kind]; exact hk2⟩
        | false =>
          show chain_inv u (s2.make_token k3, s2)
          exact ⟨hp2.1.trans hp.1, hp2.2.1.trans hp.2.1,
            (make_token_line s2 k3).trans (hp2.2.1.trans hp.2.1),
            Nat.le_trans hp.2.2.2 hp2.2.2.2, by rw [make_token_kind]; exact hk3⟩

theorem number_inv (s : Scanner) : chain_inv s s.number := by
  unfold Scanner.number chain_inv
  rw [advance_while_spec]
  refine ⟨rfl, rfl, rfl, Nat.le_add_right _ _, by simp [make_token_kind]⟩

theorem identifier_inv (s : Scanner) : chain_inv s s.identifier_or_keyword := by
  unfold Scanner.identifier_or_keyword chain_inv
  rw [advance_while_spec]
  exact ⟨rfl, rfl, rfl, Nat.le_add_right _ _,
    by rw [make_token_kind]; exact check_identifier_ne_eof _⟩

theorem string_inv (s : Scanner) : chain_inv s s.string := by
  unfold Scanner.string chain_inv
  rw [advance_while_spec]
  simp only [Scanner.is_at_end]
  split_ifs
  · exact ⟨rfl, rfl, rfl, Nat.le_add_right _ _, by simp [make_error_token_kind]⟩
  · exact ⟨rfl, rfl, rfl, Nat.le_trans (Nat.le_add_right _ _) (Nat.le_add_right _ 1),
      by simp [make_token_kind]⟩

theorem character_literal_inv (s : Scanner) : chain_inv s s.character_literal := by
  unfold Scanner.character_literal chain_inv
  simp only [Scanner.is_at_end]
  split_ifs
  · exact ⟨rfl, rfl, rfl, Nat.le_refl _, by simp [make_error_token_kind]⟩
  · exact ⟨rfl, rfl, rfl, Nat.le_add_right _ 1, by simp [make_error_token_kind]⟩
  · exact ⟨rfl, rfl, rfl, Nat.le_trans (Nat.le_add_right _ 1) (Nat.le_add_right _ 1),
      by simp [make_token_kind]⟩

/-- Branch shape `-`: `matching` then the digit-lookahead fallthrough into
`number`. -/
theorem minus_inv (u : Scanner) :
    chain_inv u
      (match u.matching '-' with
       | (true, s) => (s.make_token .MinusMinus, s)
       | (false, s) =>
         if is_digit ((s.peek.map id).getD '_') then s.number
         else (s.make_token .Minus, s)) := by
  have hp := matching_props u '-'
  cases hm : u.matching '-' with
  | mk b s' =>
    rw [hm] at hp
    cases b with
    | true =>
      show chain_inv u (s'.make_token .MinusMinus, s')
      exact ⟨hp.1, hp.2.1, (make_token_line s' _).trans hp.2.1, hp.2.2.2,
        by rw [make_token_kind]; simp⟩
    | false =>
      show chain_inv u
        (if is_digit ((s'.peek.map id).getD '_') then s'.number
         else (s'.make_token .Minus, s'))
      split
      · have hn := number_inv s'
        exact ⟨hn.1.trans hp.1, hn.2.1.trans hp.2.1,
          hn.2.2.1.trans hp.2.1, Nat.le_trans hp.2.2.2 hn.2.2.2.1, hn.2.2.2.2⟩
      · exact ⟨hp.1, hp.2.1, (make_token_line s' _).trans hp.2.1, hp.2.2.2,
          by rw [make_token_kind]; simp⟩

set_option maxHeartbeats 1600000 in
/-- Master facts about the byte-dispatch part of `next_token`: the buffer
and line counter are untouched, the produced token carries the current
line, the cursor never rewinds, and no branch produces `EndOfFile`. -/
theorem next_token_chain_props (ch : Char) (u : Scanner) :
    chain_inv u (next_token_chain ch u) := by
  unfold next_token_chain
  by_cases h1 : ch = '('
  · rw [if_pos h1]
    exact single_tok_inv _ .LeftParen (by simp)
  rw [if_neg h1]
  by_cases h2 : ch = ')'
  · rw [if_pos h2]
    exact single_tok_inv _ .RightParen (by simp)
  rw [if_neg h2]
  by_cases h3 : ch = '\x7b'
  · rw [if_pos h3]
    exact single_tok_inv _ .LeftBracket (by simp)
  rw [if_neg h3]
  by_cases h4 : ch = '\x7d'
  · rw [if_pos h4]
    exact single_tok_inv _ .RightBracket (by simp)
  rw [if_neg h4]
  by_cases h5 : ch = '['
  · rw [if_pos h5]
    exact single_tok_inv _ .LeftBrace (by simp)
  rw [if_neg h5]
  by_cases h6 : ch = ']'
  · rw [if_pos h6]
    exact single_tok_inv _ .RightBrace (by simp)
  rw [if_neg h6]
  by_cases h7 : ch = ';'
  · rw [if_pos h7]
    exact single_tok_inv _ .Semicolon (by simp)
  rw [if_neg h7]
  by_cases h8 : ch = ':'
  · rw [if_pos h8]
    exact single_tok_inv _ .Colon (by simp)
  rw [if_neg h8]
  by_cases h9 : ch = ','
  · rw [if_pos h9]
    exact single_tok_inv _ .Comma (by simp)
  rw [if_neg h9]
  by_cases h10 : ch = '?'
  · rw [if_pos h10]
    exact single_tok_inv _ .QuestionMark (by simp)
  rw [if_neg h10]
  by_cases h11 : ch = '+'
  · rw [if_pos h11]
    exact two_char_inv _ '+' .PlusPlus .Plus (by simp) (by simp)
  rw [if_neg h11]
  by_cases h12 : ch = '*'
  · rw [if_pos h12]
    exact single_tok_inv _ .Star (by simp)
  rw [if_neg h12]
  by_cases h13 : ch = '/'
  · rw [if_pos h13]
    exact single_tok_inv _ .Slash (by simp)
  rw [if_neg h13]
  by_cases h14 : ch = '%'
  · rw [if_pos h14]
    exact single_tok_inv _ .Percent (by simp)
  rw [if_neg h14]
  by_cases h15 : ch = '~'
  · rw [if_pos h15]
    exact single_tok_inv _ .Tilda (by simp)
  rw [if_neg h15]
  by_cases h16 : ch = '-'
  · rw [if_pos h16]
    exact minus_inv _
  rw [if_neg h16]
  by_cases h17 : ch = '!'
  · rw [if_pos h17]
    exact two_char_inv _ '=' .BangEqual .Bang (by simp) (by simp)
  rw [if_neg h17]
  by_cases h18 : ch = '='
  · rw [if_pos h18]
    exact two_char_inv _ '=' .EqualEqual .Equal (by simp) (by simp)
  rw [if_neg h18]
  by_cases h19 : ch = '>'
  · rw [if_pos h19]
    exact three_char_inv _ '=' '>' .GreaterEqual .GreaterGreater .Greater (by simp) (by simp) (by simp)
  rw [if_neg h19]
  by_cases h20 : ch = '<'
  · rw [if_pos h20]
    exact three_char_inv _ '=' '<' .LessEqual .LessLess .Less (by simp) (by simp) (by simp)
  rw [if_neg h20]
  by_cases h21 : ch = '|'
  · rw [if_pos h21]
    exact two_char_inv _ '|' .BarBar .Bar (by simp) (by simp)
  rw [if_neg h21]
  by_cases h22 : ch = '&'
  · rw [if_pos h22]
    exact two_char_inv _ '&' .AmpersandAmpersand .Ampersand (by simp) (by simp)
  rw [if_neg h22]
  by_cases h23 : ch = '^'
  · rw [if_pos h23]
    exact single_tok_inv _ .UpArrow (by simp)
  rw [if_neg h23]
  by_cases h24 : ch = '\x27'
  · rw [if_pos h24]
    exact character_literal_inv _
  rw [if_neg h24]
  by_cases h25 : ch = '\"'
  · rw [if_pos h25]
    exact string_inv _
  rw [if_neg h25]
  by_cases ha : (is_alpha ch || ch = '_') = true
  · rw [if_pos ha]
    exact identifier_inv _
  rw [if_neg ha]
  by_cases hd : is_digit ch = true
  · rw [if_pos hd]
    exact number_inv _
  rw [if_neg hd]
  exact ⟨rfl, rfl, rfl, Nat.le_refl _, by simp [make_error_token_kind]⟩

/-- Facts about the token-forming part of `next_token`: state preserved
except the cursor (which strictly advances), the line untouched, and
`EndOfFile` produced exactly at end of input. -/
theorem next_token_core_props (u : Scanner) :
    (next_token_core u).2.data = u.data ∧
    (next_token_core u).2.line = u.line ∧
    (next_token_core u).1.line = u.line ∧
    u.current + 1 ≤ (next_token_core u).2.current ∧
    ((next_token_core u).1.kind = .EndOfFile ↔ u.data.length ≤ u.current) := by
  unfold next_token_core Scanner.advance
  cases hg : u.data.get? u.current with
  | none =>
    have hlen : u.data.length ≤ u.current := List.get?_eq_none.mp hg
    exact ⟨rfl, rfl, rfl, Nat.le_refl _, iff_of_true rfl hlen⟩
  | some ch =>
    have hlt : u.current < u.data.length := (List.get?_eq_some.mp hg).1
    have hc := next_token_chain_props ch { u with current := u.current + 1 }
    exact ⟨hc.1, hc.2.1, hc.2.2.1, hc.2.2.2.1, iff_of_false hc.2.2.2.2 (by omega)⟩

/-- Facts about one full `next_token` call: the buffer is untouched, the
cursor strictly advances (also past the whitespace run), the resulting
line counter and the token's reported line are exactly the line after the
whitespace skip, and `EndOfFile` is produced exactly when the whitespace
skip reaches the end of the buffer. -/
theorem next_token_props (s : Scanner) :
    (s.next_token).2.data = s.data ∧
    s.current + 1 ≤ (s.next_token).2.current ∧
    (s.next_token).2.line = (s.skip_whitespace).line ∧
    (s.next_token).1.line = (s.skip_whitespace).line ∧
    ((s.next_token).1.kind = .EndOfFile ↔ s.data.length ≤ (s.skip_whitespace).current) ∧
    (s.skip_whitespace).current + 1 ≤ (s.next_token).2.current := by
  have hs := skip_whitespace_spec s
  have hc := next_token_core_props { s.skip_whitespace with start := (s.skip_whitespace).current }
  have hdata : (s.skip_whitespace).data = s.data := by rw [hs]
  have hcur : s.current ≤ (s.skip_whitespace).current := by
    rw [hs]; exact Nat.le_add_right _ _
  have h1 : (s.next_token).2.data = (s.skip_whitespace).data := hc.1
  have h2 : (s.skip_whitespace).current + 1 ≤ (s.next_token).2.current := hc.2.2.2.1
  have h3 : (s.next_token).2.line = (s.skip_whitespace).line := hc.2.1
  have h4 : (s.next_token).1.line = (s.skip_whitespace).line := hc.2.2.1
  have h5 : ((s.next_token).1.kind = .EndOfFile ↔
      (s.skip_whitespace).data.length ≤ (s.skip_whitespace).current) := hc.2.2.2.2
  refine ⟨h1.trans hdata, by omega, h3, h4, ?_, h2⟩
  rw [← hdata]
  exact h5

theorem run_calls_front (s : Scanner) (n : Nat) :
    run_calls s (n + 1) = run_calls (s.next_token).2 n := by
  induction n with
  | zero => rfl
  | succ m ih =>
    show (Scanner.next_token (run_calls s (m + 1))).2 = run_calls (s.next_token).2 (m + 1)
    rw [ih]
    rfl

/-- Claim C9.  Every `next_token` call strictly advances the cursor over
the unchanged buffer (so a finite buffer yields only finitely many
non-`EndOfFile` tokens: from any state, every token from index
`length - current` on is `EndOfFile`), and once `EndOfFile` has been
returned every subsequent call returns `EndOfFile` again. -/
theorem c9_lexer_termination :
    (∀ s : Scanner, s.current + 1 ≤ (s.next_token).2.current ∧ (s.next_token).2.data = s.data) ∧
    (∀ (s : Scanner) (n : Nat), s.data.length ≤ s.current + n →
      (nth_token s n).kind = .EndOfFile) ∧
    (∀ s : Scanner, (s.next_token).1.kind = .EndOfFile →
      ∀ n : Nat, (nth_token (s.next_token).2 n).kind = .EndOfFile) := by
  have hprod : ∀ s : Scanner,
      s.current + 1 ≤ (s.next_token).2.current ∧ (s.next_token).2.data = s.data :=
    fun s => ⟨(next_token_props s).2.1, (next_token_props s).1⟩
  have heofstep : ∀ s : Scanner, s.data.length ≤ s.current →
      (s.next_token).1.kind = .EndOfFile := by
    intro s h
    apply ((next_token_props s).2.2.2.2.1).mpr
    rw [skip_whitespace_spec s]
    show s.data.length ≤ s.current + _
    omega
  have hmain : ∀ (n : Nat) (s : Scanner), s.data.length ≤ s.current + n →
      (nth_token s n).kind = .EndOfFile := by
    intro n
    induction n with
    | zero =>
      intro s h
      exact heofstep s (by omega)
    | succ m ih =>
      intro s h
      have hrw : nth_token s (m + 1) = nth_token (s.next_token).2 m := by
        unfold nth_token
        rw [run_calls_front]
      rw [hrw]
      apply ih
      have h1 := (hprod s).1
      rw [(hprod s).2]
      omega
  refine ⟨hprod, fun s n => hmain n s, ?_⟩
  intro s heof n
  apply hmain
  have hskip := ((next_token_props s).2.2.2.2.1).mp heof
  have h2 := (next_token_props s).2.2.2.2.2
  rw [(hprod s).2]
  omega

/-- Claim C10, amended.  The line counter is incremented exactly once per
newline byte consumed as inter-token whitespace, and the token-forming
part of `next_token` never touches it, so newline bytes consumed inside
tokens — string literals, and likewise character literals — are invisible
to it: a later token's reported line is its true line minus the newline
bytes consumed inside all preceding tokens (in the concrete input
`"a\n" '\n' b` the token `b` sits on true line 3 but is reported at
3 - 2 = 1, the string literal and the character literal each having
swallowed one newline). -/
theorem c10_line_counter_amended :
    (∀ s : Scanner,
      s.skip_whitespace =
        { s with
          line := s.line + ((s.data.drop s.current).takeWhile is_ws).count '\n',
          current := s.current + ((s.data.drop s.current).takeWhile is_ws).length }) ∧
    (∀ s : Scanner,
      (s.next_token).2.line = (s.skip_whitespace).line ∧
      (s.next_token).1.line = (s.skip_whitespace).line) ∧
    ((nth_token (init_scanner "\"a\n\" \x27\n\x27 b") 2).line = 1 ∧
      ((init_scanner "\"a\n\" \x27\n\x27 b").data.take 9).count '\n' = 2 ∧
      (1 + 2) - 2 = 1) :=
  ⟨skip_whitespace_spec,
   fun s => ⟨(next_token_props s).2.2.1, (next_token_props s).2.2.2.1⟩,
   rfl, by decide, rfl⟩

theorem next_token_eq_core (s : Scanner) :
    s.next_token = next_token_core { s.skip_whitespace with start := (s.skip_whitespace).current } :=
  rfl

theorem next_token_core_at (u : Scanner) (ch : Char) (h : u.data.get? u.current = some ch) :
    next_token_core u = next_token_chain ch { u with current := u.current + 1 } := by
  unfold next_token_core Scanner.advance
  rw [h]

theorem matching_of_peek_ne (s : Scanner) (c d : Char) (h : s.peek = some d) (hne : ¬ d = c) :
    s.matching c = (false, s) := by
  unfold Scanner.matching
  rw [h]
  show (if d = c then ((true : Bool), { s with current := s.current + 1 })
      else ((false : Bool), s)) = ((false : Bool), s)
  rw [if_neg hne]

/-- The `'` branch of the dispatch: all earlier single- and two-character
cases miss, landing in `character_literal`. -/
theorem next_token_chain_quote (u : Scanner) :
    next_token_chain '\x27' u = u.character_literal := by
  unfold next_token_chain
  rw [if_neg (by decide), if_neg (by decide), if_neg (by decide), if_neg (by decide),
    if_neg (by decide), if_neg (by decide), if_neg (by decide), if_neg (by decide),
    if_neg (by decide), if_neg (by decide), if_neg (by decide), if_neg (by decide),
    if_neg (by decide), if_neg (by decide), if_neg (by decide), if_neg (by decide),
    if_neg (by decide), if_neg (by decide), if_neg (by decide), if_neg (by decide),
    if_neg (by decide), if_neg (by decide), if_neg (by decide), if_pos rfl]

/-- The `-` branch of the dispatch. -/
theorem next_token_chain_minus (u : Scanner) :
    next_token_chain '-' u =
      (match u.matching '-' with
       | (true, s) => (s.make_token .MinusMinus, s)
       | (false, s) =>
         if is_digit ((s.peek.map id).getD '_') then s.number
         else (s.make_token .Minus, s)) := by
  unfold next_token_chain
  rw [if_neg (by decide), if_neg (by decide), if_neg (by decide), if_neg (by decide),
    if_neg (by decide), if_neg (by decide), if_neg (by decide), if_neg (by decide),
    if_neg (by decide), if_neg (by decide), if_neg (by decide), if_neg (by decide),
    if_neg (by decide), if_neg (by decide), if_neg (by decide), if_pos rfl]

/-- When the byte after a leading `-` is a digit, `next_token` falls
through into `number` from the position of the `-`. -/
theorem next_token_core_minus (u : Scanner) (d : Char)
    (hpk : u.data.get? u.current = some '-')
    (hg2 : u.data.get? (u.current + 1) = some d)
    (hd : is_digit d = true) :
    next_token_core u = Scanner.number { u with current := u.current + 1 } := by
  have hdm : ¬ d = '-' := fun h => absurd (h ▸ hd) (by decide)
  have hpeek : ({ u with current := u.current + 1 } : Scanner).peek = some d := hg2
  rw [next_token_core_at u '-' hpk, next_token_chain_minus,
    matching_of_peek_ne _ '-' d hpeek hdm]
  show (if is_digit ((((({ u with current := u.current + 1 } : Scanner)).peek.map id).getD '_')) = true
      then ({ u with current := u.current + 1 } : Scanner).number
      else (({ u with current := u.current + 1 } : Scanner).make_token .Minus,
        ({ u with current := u.current + 1 } : Scanner))) =
    ({ u with current := u.current + 1 } : Scanner).number
  rw [hpeek]
  simp [hd]

/-- The token produced by `number`, in closed form. -/
theorem number_token (s : Scanner) :
    (s.number).1 =
      { kind := .IntLiteral, line := s.line,
        data := String.mk ((s.data.drop s.start).take
          (s.current + ((s.data.drop s.current).takeWhile is_digit).length - s.start)) } := by
  unfold Scanner.number
  rw [advance_while_spec]
  rfl

/-- Claim C4, counterexample.  On the input `'ab` the byte after the
consumed character is `b`, not a closing `'`, yet `next_token` returns a
`CharLiteral` token (with lexeme `'ab`) instead of the `Error` token the
claim requires. -/
theorem c4_char_literal_counterexample :
    ((init_scanner "\x27ab").next_token).1 =
      { kind := .CharLiteral, line := 1, data := "\x27ab" } ∧
    (init_scanner "\x27ab").data.get? 2 = some 'b' ∧
    ¬ ('b' = '\x27') :=
  ⟨rfl, rfl, by decide⟩

/-- Claim C4, amended.  When `next_token` encounters a `'`, it returns an
`Error` token ("expected character") if the input ends right after the
quote, an `Error` token ("unterminated character literal") if exactly one
byte follows, and otherwise a `CharLiteral` token spanning exactly three
bytes — the quote, the character, and whatever byte comes next, which is
consumed without being checked to be `'`. -/
theorem c4_char_literal_amended :
    ∀ s : Scanner,
      (s.skip_whitespace).peek = some '\x27' →
      (((s.skip_whitespace).data.length ≤ (s.skip_whitespace).current + 1 →
        (s.next_token).1 =
          { kind := .Error, line := (s.skip_whitespace).line, data := "expected character" }) ∧
       ((s.skip_whitespace).data.length = (s.skip_whitespace).current + 2 →
        (s.next_token).1 =
          { kind := .Error, line := (s.skip_whitespace).line,
            data := "unterminated character literal" }) ∧
       ((s.skip_whitespace).current + 3 ≤ (s.skip_whitespace).data.length →
        (s.next_token).1 =
          { kind := .CharLiteral, line := (s.skip_whitespace).line,
            data := String.mk
              (((s.skip_whitespace).data.drop (s.skip_whitespace).current).take 3) } ∧
        (s.next_token).2.current = (s.skip_whitespace).current + 3)) := by
  intro s hpk
  have hrw : s.next_token =
      Scanner.character_literal
        { data := (s.skip_whitespace).data, line := (s.skip_whitespace).line,
          start := (s.skip_whitespace).current,
          current := (s.skip_whitespace).current + 1 } := by
    rw [next_token_eq_core,
      next_token_core_at ({ s.skip_whitespace with start := (s.skip_whitespace).current })
        '\x27' hpk, next_token_chain_quote]
  rw [hrw]
  unfold Scanner.character_literal
  simp only [Scanner.is_at_end]
  split_ifs with h1 h2
  · have h1' : (s.skip_whitespace).data.length ≤ (s.skip_whitespace).current + 1 := by
      simpa using h1
    exact ⟨fun _ => rfl, fun hlen => absurd hlen (by omega),
      fun hlen => absurd hlen (by omega)⟩
  · have h1' : ¬ (s.skip_whitespace).data.length ≤ (s.skip_whitespace).current + 1 := by
      simpa using h1
    have h2' : (s.skip_whitespace).data.length ≤ (s.skip_whitespace).current + 1 + 1 := by
      simpa using h2
    exact ⟨fun hlen => absurd hlen (by omega), fun _ => rfl,
      fun hlen => absurd hlen (by omega)⟩
  · have h1' : ¬ (s.skip_whitespace).data.length ≤ (s.skip_whitespace).current + 1 := by
      simpa using h1
    have h2' : ¬ (s.skip_whitespace).data.length ≤ (s.skip_whitespace).current + 1 + 1 := by
      simpa using h2
    refine ⟨fun hlen => absurd hlen (by omega), fun hlen => absurd hlen (by omega),
      fun hlen => ⟨?_, rfl⟩⟩
    have h3 : ∀ l : List Char,
        l.take ((s.skip_whitespace).current + 1 + 1 + 1 - (s.skip_whitespace).current) =
        l.take 3 := by
      intro l
      congr 1
      omega
    simp [Scanner.make_token, Scanner.lexeme, h3]

/-- Witness for the amended C4 theorem: the three cases at the concrete
inputs `'`, `'a`, and `'ab`. -/
theorem c4_char_literal_amended_witness :
    ((init_scanner "\x27").next_token).1 =
      { kind := .Error, line := 1, data := "expected character" } ∧
    ((init_scanner "\x27a").next_token).1 =
      { kind := .Error, line := 1, data := "unterminated character literal" } ∧
    (((init_scanner "\x27ab").next_token).1 =
      { kind := .CharLiteral, line := 1, data := "\x27ab" } ∧
     ((init_scanner "\x27ab").next_token).2.current = 0 + 3) :=
  ⟨(c4_char_literal_amended (init_scanner "\x27") rfl).1 (by decide),
   (c4_char_literal_amended (init_scanner "\x27a") rfl).2.1 (by decide),
   (c4_char_literal_amended (init_scanner "\x27ab") rfl).2.2 (by decide)⟩

/-- Claim C8.  Whenever `next_token` starts a token at a `-` byte whose
immediately following byte is a digit, it produces a single `IntLiteral`
token whose lexeme is the `-` followed by the maximal digit run; in
particular `a-5` tokenizes as `Identifier "a"`, `IntLiteral "-5"`,
`EndOfFile`. -/
theorem c8_minus_digit_literal :
    (∀ s : Scanner,
      (s.skip_whitespace).peek = some '-' →
      is_digit (((((s.skip_whitespace).data.get?
          ((s.skip_whitespace).current + 1))).map id).getD '_') = true →
      (s.next_token).1.kind = .IntLiteral ∧
      (s.next_token).1.data =
        String.mk ('-' ::
          ((s.skip_whitespace).data.drop
            ((s.skip_whitespace).current + 1)).takeWhile is_digit)) ∧
    scan_tokens (init_scanner "a-5") 3 =
      [{ kind := .Identifier, line := 1, data := "a" },
       { kind := .IntLiteral, line := 1, data := "-5" },
       { kind := .EndOfFile, line := 1, data := "" }] := by
  refine ⟨?_, rfl⟩
  intro s hpk hdg
  cases hg2 : (s.skip_whitespace).data.get? ((s.skip_whitespace).current + 1) with
  | none =>
    rw [hg2] at hdg
    exact absurd hdg (by decide)
  | some d =>
    rw [hg2] at hdg
    have hd : is_digit d = true := by simpa using hdg
    have hcore := next_token_core_minus
      ({ s.skip_whitespace with start := (s.skip_whitespace).current }) d hpk hg2 hd
    have hrw : s.next_token =
        Scanner.number
          { data := (s.skip_whitespace).data, line := (s.skip_whitespace).line,
            start := (s.skip_whitespace).current,
            current := (s.skip_whitespace).current + 1 } := by
      rw [next_token_eq_core, hcore]
    rw [hrw, number_token]
    refine ⟨rfl, ?_⟩
    show String.mk (((s.skip_whitespace).data.drop (s.skip_whitespace).current).take
        ((s.skip_whitespace).current + 1 +
          (((s.skip_whitespace).data.drop
            ((s.skip_whitespace).current + 1)).takeWhile is_digit).length -
          (s.skip_whitespace).current)) = _
    have hdrop : (s.skip_whitespace).data.drop (s.skip_whitespace).current =
        '-' :: (s.skip_whitespace).data.drop ((s.skip_whitespace).current + 1) :=
      drop_cons_of_get _ _ _ hpk
    rw [hdrop]
    have harith : (s.skip_whitespace).current + 1 +
        (((s.skip_whitespace).data.drop
          ((s.skip_whitespace).current + 1)).takeWhile is_digit).length -
        (s.skip_whitespace).current =
        (((s.skip_whitespace).data.drop
          ((s.skip_whitespace).current + 1)).takeWhile is_digit).length + 1 := by
      omega
    rw [harith, List.take_succ_cons, take_takeWhile_len]

/-- Witness for C8's general part: the input `-5` (where the whitespace
skip is the identity and the `-` is immediately followed by the digit
`5`). -/
theorem c8_minus_digit_literal_witness :
    ((init_scanner "-5").next_token).1.kind = .IntLiteral ∧
    ((init_scanner "-5").next_token).1.data = "-5" :=
  c8_minus_digit_literal.1 (init_scanner "-5") rfl (by decide)

theorem advance_previous (p : Parser) : (p.advance).previous_token = p.current_token := by
  unfold Parser.advance
  cases p.scanner.next_token
  rfl

/-- Claim C7, amended.  An `IntLiteral` token is turned into an `IntLit`
node carrying exactly the i32 value of its lexeme; when the lexeme fails
to parse as an i32 the parser raises an ordinary parse error (an `Err`
result with the sticky `had_error` flag set), never a crash.  For an
unsigned lexeme this failure is exactly the digit run exceeding
`2^31 - 1`; a `-`-signed lexeme (which the lexer can produce) fails only
past `2^31`, so `-2147483648` is accepted. -/
theorem c7_int_literal_amended :
    (∀ (f : Nat) (p : Parser), p.current_token.kind = .IntLiteral →
      (parse_i32 p.current_token.data = none →
        isOkResult (parse_primary (f + 1) p).1 = false ∧
        (parse_primary (f + 1) p).2.had_error = true) ∧
      (∀ v : Int, parse_i32 p.current_token.data = some v →
        parse_primary (f + 1) p =
          continue_parse_postfix f (.IntLit p.current_token.line v) p.advance)) ∧
    (∀ ds : List Char, ¬ ds = [] → ds.all is_digit = true →
      (parse_i32 (String.mk ds) = none ↔
        2 ^ 31 - 1 < ds.foldl (fun acc ch => acc * 10 + (ch.toNat - '0'.toNat)) 0)) := by
  constructor
  · intro f p hk
    have hm : p.matching .IntLiteral = (true, p.advance) := by
      unfold Parser.matching Parser.check
      rw [hk]
      simp
    constructor
    · intro hnone
      simp only [parse_primary, hm, advance_previous, hnone, Parser.error_at_current,
        isOkResult]
      exact ⟨by trivial, by trivial⟩
    · intro v hsome
      simp only [parse_primary, hm, advance_previous, hsome]
  · intro ds hne hdig
    cases ds with
    | nil => exact absurd rfl hne
    | cons c cs =>
      simp only [List.all_cons, Bool.and_eq_true] at hdig
      obtain ⟨hc, hcs⟩ := hdig
      have hcm : ¬ c = '-' := by
        intro h; rw [h] at hc; exact absurd hc (by decide)
      have hcp : ¬ c = '+' := by
        intro h; rw [h] at hc; exact absurd hc (by decide)
      simp only [parse_i32]
      simp only [if_neg hcm, if_neg hcp]
      simp only [List.isEmpty_cons, List.all_cons, hc, hcs]
      simp only [Bool.false_eq_true, if_false, Bool.and_self, if_true]
      split_ifs with h
      · exact iff_of_false (by simp) (by omega)
      · exact iff_of_true rfl (by omega)

/-- Witness for the amended C7 theorem: the overflowing lexeme
`2147483648` produces a parse error with `had_error` set, the fitting
lexeme `42` produces `IntLit 42`, and for the digit run `2147483648` the
i32 parse fails exactly because the run exceeds `2^31 - 1`. -/
theorem c7_int_literal_amended_witness :
    (isOkResult (parse_primary 51 (initParser "2147483648")).1 = false ∧
      (parse_primary 51 (initParser "2147483648")).2.had_error = true) ∧
    parse_primary 51 (initParser "42") =
      continue_parse_postfix 50 (.IntLit 1 42) (initParser "42").advance ∧
    (parse_i32 (String.mk ("2147483648".data)) = none ↔
      2 ^ 31 - 1 <
        ("2147483648".data).foldl (fun acc ch => acc * 10 + (ch.toNat - '0'.toNat)) 0) :=
  ⟨(c7_int_literal_amended.1 50 (initParser "2147483648") rfl).1 (by decide),
   (c7_int_literal_amended.1 50 (initParser "42") rfl).2 42 (by decide),
   c7_int_literal_amended.2 ("2147483648".data) (by decide) (by decide)⟩

/-- Witness for C9: on the two-byte input `ab` the third token (index 2)
is already `EndOfFile`, and after the empty input's first `EndOfFile`
every following token stays `EndOfFile`. -/
theorem c9_lexer_termination_witness :
    (nth_token (init_scanner "ab") 2).kind = .EndOfFile ∧
    (nth_token ((init_scanner "").next_token).2 1).kind = .EndOfFile :=
  ⟨c9_lexer_termination.2.1 (init_scanner "ab") 2 (by decide),
   c9_lexer_termination.2.2 (init_scanner "") rfl 1⟩

/-- `continue_parse_fn` only ever succeeds with a `Function` declaration
(it constructs one directly). -/
theorem continue_parse_fn_function (f : Nat) (name : Token) (p : Parser) (d : Decl) (q : Parser)
    (h : continue_parse_fn f name p = (.ok d, q)) :
    ∃ params body, d = .Function name.line name.data params body := by
  match f with
  | 0 =>
    simp [continue_parse_fn, fuel_out] at h
  | f + 1 =>
    simp only [continue_parse_fn] at h
    split at h
    · simp at h
    · split at h
      · simp at h
      · split at h
        · simp at h
        · simp only [Prod.mk.injEq, Except.ok.injEq] at h
          exact ⟨_, _, h.1.symm⟩

/-- Claim C1.  The claim says `validate_one_decl` returns true exactly when
no error was reported, and that exactly the error-free declarations are
handed to code generation.  The code does the opposite: it returns the
saved `had_error` flag (true = an error was reported), and
`run_simple_compiler` compiles a declaration when that Bool is true.
Witnessed here on concrete declarations: an error-free function `main`
yields `false` (and is dropped), a function containing `break` outside any
loop yields `true` (and is the one handed to code generation). -/
theorem c1_validator_returns_error_flag :
    (validate_one_decl Validator.new (.Function 1 "main" [] (.Block 1 []))).1 = false ∧
    (validate_one_decl Validator.new (.Function 1 "main" [] (.Block 1 []))).2.errors = [] ∧
    (validate_one_decl Validator.new (.Function 1 "f" [] (.Block 1 [.Break 2]))).1 = true ∧
    (validate_one_decl Validator.new (.Function 1 "f" [] (.Block 1 [.Break 2]))).2.errors =
      [(2, "break statement appeared outside of loop")] ∧
    handed_to_codegen
        [.Function 1 "main" [] (.Block 1 []), .Function 2 "f" [] (.Block 2 [.Break 3])] =
      [.Function 2 "f" [] (.Block 2 [.Break 3])] :=
  ⟨rfl, rfl, rfl, rfl, rfl⟩

/-- Claim C2.  The claim says a function declaration with a (possibly
empty) comma-separated identifier list parses to a `Function` whose
`params` are exactly those identifiers.  In the code, `parse_decl` has
already consumed the `(` when `parse_parameters` requires another `(`, so
`f() {}` (and any ordinary function declaration) fails with
"expected '(' before function parameters" and produces no declaration at
all; the whole-file parse yields zero declarations and sets `had_error`. -/
theorem c2_function_declaration_parse_fails :
    (parse_decl 200 (initParser "f() \x7b\x7d")).1 =
      .error { line := 1, msg := "expected \x27(\x27 before function parameters" } ∧
    (parse_decl 200 (initParser "main(a, b) \x7b\x7d")).1 =
      .error { line := 1, msg := "expected \x27(\x27 before function parameters" } ∧
    (Parser.parse 300 (initParser "f() \x7b\x7d")).1 = [] ∧
    (Parser.parse 300 (initParser "f() \x7b\x7d")).2.had_error = true :=
  ⟨rfl, rfl, rfl, rfl⟩

/-- Claim C3.  The claim says `parse_auto_stmt` reuses
`continue_parse_var`, so that `auto x;` yields an `Auto` statement.  The
code calls `continue_parse_fn` instead: on `auto x;` parsing fails with
"expected '(' before function parameters", and in general
`parse_auto_stmt` can never succeed (when `continue_parse_fn` does
succeed it returns a `Function`, which hits the `panic!()` arm). -/
theorem c3_auto_stmt_uses_fn_routine :
    ((parse_stmt 200 (initParser "auto x;")).1 =
      .error { line := 1, msg := "expected \x27(\x27 before function parameters" } ∧
     (parse_stmt 200 (initParser "auto x;")).2.had_error = true) ∧
    (∀ (fuel : Nat) (p : Parser), isOkResult (parse_auto_stmt fuel p).1 = false) := by
  refine ⟨⟨rfl, rfl⟩, ?_⟩
  intro fuel p
  match fuel with
  | 0 => simp [parse_auto_stmt, fuel_out, isOkResult]
  | f + 1 =>
    simp only [parse_auto_stmt]
    split
    · simp [isOkResult]
    · rename_i name p' heq
      rcases hfn : continue_parse_fn f name p' with ⟨r, q⟩
      rcases r with e | d
      · simp [hfn, isOkResult]
      · obtain ⟨params, body, rfl⟩ := continue_parse_fn_function f name p' d q hfn
        simp [hfn, isOkResult]

/-- Claim C5.  Indexing is desugared at parse time, for every expression
`e` and index expression `i`: whenever the postfix loop stands at a `[`
and the parser yields some index expression `i` followed by `]`, the
result fed back into the loop for the preceding expression `res` is
exactly `UnaryOp(*, prefix, BinOp(res, +, BinOp(i, *, IntLit 4)))` (every
node positioned at the `[` token's line).  In particular `a[i]` parses to
`*(a + i*4)` — the two concrete source strings produce identical trees
(here even the positions agree, since all tokens sit on line 1) — and a
second, nested instance checks the same for compound `expr` and
`index`. -/
theorem c5_index_desugar :
    (∀ (f : Nat) (p : Parser) (res index : Expr) (p2 : Parser),
      p.current_token.kind = .LeftBrace →
      parse_expr f p.advance = (.ok index, p2) →
      p2.current_token.kind = .RightBrace →
      continue_parse_postfix (f + 1) res p =
        continue_parse_postfix f
          (.UnaryOp p.current_token.line .Star false
            (.BinOp p.current_token.line res .Plus
              (.BinOp p.current_token.line index .Star
                (.IntLit p.current_token.line 4)))) p2.advance) ∧
    parse_expr_str "a[i]" =
      .ok (.UnaryOp 1 .Star false
        (.BinOp 1 (.Var 1 "a") .Plus
          (.BinOp 1 (.Var 1 "i") .Star (.IntLit 1 4)))) ∧
    parse_expr_str "a[i]" = parse_expr_str "*(a + i*4)" ∧
    parse_expr_str "(a+1)[b+2]" = parse_expr_str "*((a+1) + (b+2)*4)" := by
  refine ⟨?_, rfl, rfl, rfl⟩
  intro f p res index p2 h1 h2 h3
  have hm : p.matching_any [.PlusPlus, .MinusMinus, .LeftBrace] = (true, p.advance) := by
    simp [Parser.matching_any, Parser.matching, Parser.check, h1]
  have hr : p2.require .RightBrace "expected \x27]\x27 after index" =
      (.ok p2.advance.previous_token, p2.advance) := by
    simp [Parser.require, Parser.matching, Parser.check, h3]
  simp only [ continue_parse_postfix, hm, advance_previous, h1, h2, hr]
  simp

/-- Witness for C5's general part: a parser standing at `[` over the
source `[i]`, with the base expression `Var "a"`; the parsed index is
`Var "i"` and `]` follows, so one postfix step produces the desugared
tree. -/
theorem c5_index_desugar_witness :
    continue_parse_postfix 51 (.Var 1 "a") (initParser "[i]") =
      continue_parse_postfix 50
        (.UnaryOp 1 .Star false
          (.BinOp 1 (.Var 1 "a") .Plus
            (.BinOp 1 (.Var 1 "i") .Star (.IntLit 1 4))))
        ((parse_expr 50 (initParser "[i]").advance).2).advance :=
  c5_index_desugar.1 50 (initParser "[i]") (.Var 1 "a") (.Var 1 "i")
    ((parse_expr 50 (initParser "[i]").advance).2) rfl rfl rfl

/-- Claim C6.  Precedence and associativity at the concrete instances the
spec names: multiplication binds under addition, assignment is
right-associative, and a binary level folds left-associatively. -/
theorem c6_precedence_associativity :
    parse_expr_str "1 + 2 * 3" =
      .ok (.BinOp 1 (.IntLit 1 1) .Plus (.BinOp 1 (.IntLit 1 2) .Star (.IntLit 1 3))) ∧
    parse_expr_str "1 = 2 = 3" =
      .ok (.BinOp 1 (.IntLit 1 1) .Equal (.BinOp 1 (.IntLit 1 2) .Equal (.IntLit 1 3))) ∧
    parse_expr_str "1 + 2 + 3" =
      .ok (.BinOp 1 (.BinOp 1 (.IntLit 1 1) .Plus (.IntLit 1 2)) .Plus (.IntLit 1 3)) :=
  ⟨rfl, rfl, rfl⟩

/-- Claim C7, counterexample.  The lexer's minus-digit rule makes
`-2147483648` a single `IntLiteral` token whose digit run `2147483648`
does not fit in an i32 (it exceeds `2^31 - 1`); the claim then demands a
parse error, but Rust's `parse::<i32>` accepts the full lexeme (it is
exactly `i32::MIN`), so the parser succeeds with no error. -/
theorem c7_digit_run_counterexample :
    ("2147483648" : String).data.all is_digit = true ∧
    2 ^ 31 - 1 <
      ("2147483648" : String).data.foldl (fun acc ch => acc * 10 + (ch.toNat - '0'.toNat)) 0 ∧
    scan_tokens (init_scanner "-2147483648") 2 =
      [{ kind := .IntLiteral, line := 1, data := "-2147483648" },
       { kind := .EndOfFile, line := 1, data := "" }] ∧
    (parse_expr 200 (initParser "-2147483648")).1 = .ok (.IntLit 1 (-2147483648)) ∧
    (parse_expr 200 (initParser "-2147483648")).2.had_error = false :=
  ⟨by decide, by decide, rfl, rfl, rfl⟩

/-- Claim C10, counterexample.  In the input `"a\n" '\n' b` the token `b`
begins at offset 9, after 2 newline bytes, so its true 1-based line is 3;
the sole string literal spans k = 1 newline, so the claim predicts a
reported line of 3 - 1 = 2.  But the newline inside the character literal
is also consumed without touching the line counter, and `b` is actually
reported at line 1. -/
theorem c10_line_counter_counterexample :
    scan_tokens (init_scanner "\"a\n\" \x27\n\x27 b") 3 =
      [{ kind := .StringLiteral, line := 1, data := "\"a\n\"" },
       { kind := .CharLiteral, line := 1, data := "\x27\n\x27" },
       { kind := .Identifier, line := 1, data := "b" }] ∧
    ((init_scanner "\"a\n\" \x27\n\x27 b").data.take 9).count '\n' = 2 ∧
    ("\"a\n\"" : String).data.count '\n' = 1 ∧
    (1 + 2) - 1 ≠ 1 :=
  ⟨rfl, by decide, by decide, by decide⟩

end Blang


